import Mathlib

/-!
Verification of the phyloXML reader/writer in `src/Bio/TreeIO/PhyloXMLIO.py`
against its natural-language specification.

The Python source is shallowly embedded: the ElementTree event stream is a
`List Event` generated depth-first from an `Element` tree, pure helper
functions become Lean functions, and the stateful parsing loops of
`Parser.read`, `Parser.parse`, `Parser._parse_phylogeny` and
`Parser._parse_clade` become step functions over explicit parser states.
The recursive call structure of `_parse_clade` (one recursive invocation per
nested `clade` element, each with its own local `tag_stack`) is represented
by an explicit stack of frames, one frame per active invocation, holding that
invocation's partially built clade and its local tag stack; each branch of
the step function corresponds line-by-line to a branch of the source loops.
Python exceptions are modelled by `Except PyErr`.

The domain value classes (`Bio.Tree.PhyloXML`: Phylogeny, Clade, Confidence,
...) are not under `src/`; only their construction and field usage by this
reader/writer is visible.  Their record shapes are therefore modelled from
the spec (section 3, "DATA MODEL") and from the exact field usage in the
source, and are marked `Modelled from the spec:` below.
-/

namespace PhyloXML

/-- Python exceptions raised (directly or via builtins) by the source. -/
inductive PyErr where
  /-- `PhyloXMLError`, the structural-error class of the module. -/
  | phyloXMLError (msg : String)
  /-- `ValueError`, e.g. from `float(...)`, `str2bool`, or tuple unpacking. -/
  | valueError (msg : String)
  /-- `TypeError`, e.g. an unexpected keyword argument. -/
  | typeError (msg : String)
  /-- `AttributeError`, e.g. `None.strip()` or a missing writer method. -/
  | attributeError (msg : String)
  /-- `AssertionError` from an `assert` statement. -/
  | assertionError (msg : String)
  /-- `IndexError`, e.g. `tag_stack[-1]` on an empty list. -/
  | indexError (msg : String)
  deriving DecidableEq, Repr

deriving instance DecidableEq for Except

/-! ### Models of the Python string/number builtins used by the source

Lean's own `String.split`/`String.trim`/... do not reduce in the kernel, so
all string manipulation is implemented over `List Char`.  The CPython
builtins `float(...)`, `int(...)`, `str.strip`, `str.split` are external to
the repository; they are modelled here on the forms of input the source
feeds them (decimal numeric literals, whitespace conventions of `str`). -/

/-- Whitespace characters recognised by CPython's `str.split()`/`str.strip()`. -/
def pyIsSpace (c : Char) : Bool :=
  c = ' ' || c = '\t' || c = '\n' || c = '\r' || c = '\x0b' || c = '\x0c'

/-- `str.strip()`: remove leading and trailing whitespace. -/
def pyStrip (s : String) : String :=
  String.mk (((s.toList.dropWhile pyIsSpace).reverse.dropWhile pyIsSpace).reverse)

/-- Helper for `pySplitWs`: `acc` holds the reversed current word. -/
def pySplitWsAux : List Char → List Char → List String
  | acc, [] => if acc.isEmpty then [] else [String.mk acc.reverse]
  | acc, c :: cs =>
    if pyIsSpace c then
      if acc.isEmpty then pySplitWsAux [] cs
      else String.mk acc.reverse :: pySplitWsAux [] cs
    else pySplitWsAux (c :: acc) cs

/-- Split a character list into maximal runs of non-whitespace characters,
as CPython's `str.split()` (no argument) does. -/
def pySplitWs (cs : List Char) : List String := pySplitWsAux [] cs

/-- Value of a nonempty all-digit character list, `none` otherwise. -/
def digitsVal : List Char → Option Nat
  | [] => none
  | cs =>
    if cs.all Char.isDigit then
      some (cs.foldl (fun acc c => 10 * acc + (c.toNat - 48)) 0)
    else none

/-- Model of CPython `int(text)` on decimal string literals: optional
surrounding whitespace, optional sign, nonempty digit run.  `none` means the
call raises `ValueError`. -/
def pyInt? (s : String) : Option Int :=
  match (pyStrip s).toList with
  | '+' :: cs => (digitsVal cs).map Int.ofNat
  | '-' :: cs => (digitsVal cs).map (fun n => -(n : Int))
  | cs => (digitsVal cs).map Int.ofNat

/-- Abstract CPython float.  No proved claim depends on float arithmetic or
canonical float printing, so a float value is carried as its (stripped)
accepted source literal. -/
structure PyFloat where
  lit : String
  deriving DecidableEq, Repr

/-- Accepted decimal float literal body: digits, optionally with one decimal
point somewhere, at least one digit overall. -/
def floatBodyOk (cs : List Char) : Bool :=
  match cs.splitOnP (· = '.') with
  | [a] => !a.isEmpty && a.all Char.isDigit
  | [a, b] => (!a.isEmpty || !b.isEmpty) && a.all Char.isDigit && b.all Char.isDigit
  | _ => false

/-- Model of CPython `float(text)` on decimal literals: optional surrounding
whitespace, optional sign, digits with at most one `.`.  `none` means the
call raises `ValueError`. -/
def pyFloat? (s : String) : Option PyFloat :=
  let t := pyStrip s
  let body := match t.toList with
    | '+' :: cs => cs
    | '-' :: cs => cs
    | cs => cs
  if floatBodyOk body then some ⟨t⟩ else none

/-- A float is falsy in Python iff it is zero: every digit of the accepted
literal is `0`. -/
def pyFloatIsZero (f : PyFloat) : Bool :=
  f.lit.toList.all (fun c => !c.isDigit || c = '0')

/-! ### Tag/namespace utilities (source lines 82-98) -/

/-- The recognised phyloXML namespace (`NAMESPACES['phy']`, line 43). -/
def phyNS : String := "http://www.phyloxml.org"

/-- Split a character list at the first occurrence of `sep`. -/
def splitFirst (sep : Char) : List Char → Option (List Char × List Char)
  | [] => none
  | c :: cs =>
    if c = sep then some ([], cs)
    else match splitFirst sep cs with
      | none => none
      | some (a, b) => some (c :: a, b)

/-- `local(tag)` (source lines 82-86; `local` is a Lean keyword): strip a
leading brace-prefixed namespace.  `tag[0]` raises `IndexError` on the empty
string, and `tag.index('\x7d')` raises `ValueError` when the tag starts with
a brace that is never closed. -/
def local_ (tag : String) : Except PyErr String :=
  match tag.toList with
  | [] => .error (.indexError "string index out of range")
  | c :: cs =>
    if c = '\x7b' then
      match splitFirst '\x7d' (c :: cs) with
      | some (_, aft) => .ok (String.mk aft)
      | none => .error (.valueError "substring not found")
    else .ok tag

/-- `split_namespace(tag)` (source lines 88-93): `tag[1:].split('\x7d', 1)`.
String slicing and `str.split` never raise on a string, so the `except`
branch returning `('', tag)` is unreachable; the function really returns a
list of one or two strings. -/
def split_namespace (tag : String) : List String :=
  match splitFirst '\x7d' (tag.toList.drop 1) with
  | none => [String.mk (tag.toList.drop 1)]
  | some (a, b) => [String.mk a, String.mk b]

/-- Tuple unpacking `namespace, tag = split_namespace(...)`: a list of
exactly two values unpacks, anything else raises `ValueError`. -/
def unpack2 : List String → Except PyErr (String × String)
  | [a, b] => .ok (a, b)
  | [_] => .error (.valueError "need more than 1 value to unpack")
  | _ => .error (.valueError "too many values to unpack")

/-- `_ns(tag, namespace)` (source lines 96-98): `'\x7b%s\x7d%s'`. -/
def _ns (tag : String) (ns : String := phyNS) : String :=
  "\x7b" ++ ns ++ "\x7d" ++ tag

/-! ### Utilities (source lines 151-200) -/

/-- `str2bool` (source lines 151-156). -/
def str2bool (text : String) : Except PyErr Bool :=
  if text = "true" then .ok true
  else if text = "false" then .ok false
  else .error (.valueError ("String could not be converted to boolean: " ++ text))

/-- A Python value appearing in an attribute dict after `dict_str2bool`:
either still a string or a converted boolean. -/
inductive PyVal where
  | s (v : String)
  | b (v : Bool)
  deriving DecidableEq, Repr

/-- Associative-list update used to model `out[key] = ...`. -/
def assocSet (out : List (String × PyVal)) (key : String) (v : PyVal) :
    List (String × PyVal) :=
  out.map (fun kv => if kv.1 = key then (kv.1, v) else kv)

/-- `dict_str2bool` (source lines 158-163): copy the dict and convert the
values at the given keys with `str2bool`, in key-list order. -/
def dict_str2bool (dct : List (String × String)) (keys : List String) :
    Except PyErr (List (String × PyVal)) :=
  keys.foldlM
    (fun out key =>
      match (dct.find? (fun kv => kv.1 = key)) with
      | none => .ok out
      | some kv => do
          let b ← str2bool kv.2
          .ok (assocSet out key (.b b)))
    (dct.map (fun kv => (kv.1, PyVal.s kv.2)))

/-- `_int` (source lines 165-170): lenient integer coercion; `None` both for
`None` input and on conversion failure. -/
def _int (text : Option String) : Option Int :=
  match text with
  | none => none
  | some t => pyInt? t

/-- `_float` (source lines 172-177): lenient float coercion; `None` both for
`None` input and on conversion failure. -/
def _float (text : Option String) : Option PyFloat :=
  match text with
  | none => none
  | some t => pyFloat? t

/-- `collapse_wspace` (source lines 179-188): trim and fold internal
whitespace runs to one space; passes `None` through. -/
def collapse_wspace (text : Option String) : Option String :=
  match text with
  | none => none
  | some t => some (String.intercalate " " (pySplitWs t.toList))

/-- `replace_wspace` (source lines 190-200): replace tab/LF/CR by spaces
without folding.  (Defined in the source but never called there.) -/
def replace_wspace (text : String) : String :=
  String.mk (text.toList.map
    (fun c => if c = '\t' || c = '\n' || c = '\r' then ' ' else c))

/-- Python truthiness dance `text and text.strip() or None` used for `Other`
values and `node_id`: `None`/empty stays `None`, otherwise the stripped text
unless stripping empties it. -/
def truthyStrip (text : Option String) : Option String :=
  match text with
  | none => none
  | some t =>
    if t = "" then none
    else if pyStrip t = "" then none
    else some (pyStrip t)

/-! ### The ElementTree event-stream model (external collaborator)

An XML element carries a (possibly namespace-prefixed) tag, an attribute
mapping, its direct text, and its children.  `ElementTree.iterparse` with
`events=('start','end')` yields one `start` and one `end` event per element,
depth-first in document order; the source only reads `tag`/`attrib` at a
`start` event and the complete element at its `end` event, which this model
satisfies by attaching the whole element to both events.  The mutual
list type keeps all recursion structural (kernel-reducible). -/

/-- Non-recursive data of an element. -/
structure ECore where
  tag : String
  attrib : List (String × String)
  text : Option String
  deriving DecidableEq, Repr

mutual
inductive Element where
  | mk (core : ECore) (children : ElementList)
  deriving Repr
inductive ElementList where
  | nil
  | cons (e : Element) (es : ElementList)
  deriving Repr
end

mutual
def decEqElement (a b : Element) : Decidable (a = b) :=
  match a, b with
  | .mk c k, .mk c' k' =>
    if h1 : c = c' then
      match decEqElementList k k' with
      | isTrue h2 => isTrue (by rw [h1, h2])
      | isFalse h2 => isFalse (fun h => by cases h; exact h2 rfl)
    else isFalse (fun h => by cases h; exact h1 rfl)
def decEqElementList (a b : ElementList) : Decidable (a = b) :=
  match a, b with
  | .nil, .nil => isTrue rfl
  | .nil, .cons _ _ => isFalse (fun h => by cases h)
  | .cons _ _, .nil => isFalse (fun h => by cases h)
  | .cons e es, .cons f fs =>
    match decEqElement e f with
    | isTrue h1 =>
      match decEqElementList es fs with
      | isTrue h2 => isTrue (by rw [h1, h2])
      | isFalse h2 => isFalse (fun h => by cases h; exact h2 rfl)
    | isFalse h1 => isFalse (fun h => by cases h; exact h1 rfl)
end

instance : DecidableEq Element := decEqElement

instance : DecidableEq ElementList := decEqElementList

def Element.core : Element → ECore
  | .mk c _ => c

def Element.children : Element → ElementList
  | .mk _ k => k

def Element.tag (e : Element) : String := e.core.tag

def Element.attrib (e : Element) : List (String × String) := e.core.attrib

def Element.text (e : Element) : Option String := e.core.text

/-- `elem.get(key)`: attribute lookup, `None` when absent. -/
def Element.get (e : Element) (key : String) : Option String :=
  (e.attrib.find? (fun kv => kv.1 = key)).map (·.2)

/-- `key in elem.keys()`. -/
def Element.hasKey (e : Element) (key : String) : Bool :=
  e.attrib.any (fun kv => kv.1 = key)

def ElementList.toList : ElementList → List Element
  | .nil => []
  | .cons e es => e :: es.toList

def ElementList.ofList : List Element → ElementList
  | [] => .nil
  | e :: es => .cons e (ElementList.ofList es)

/-- Convenience constructor for concrete elements. -/
def el (tag : String) (attrib : List (String × String)) (text : Option String)
    (children : List Element) : Element :=
  .mk ⟨tag, attrib, text⟩ (ElementList.ofList children)

/-- `parent.find(path)` for a plain tag path: first child with that tag. -/
def Element.find (e : Element) (tag : String) : Option Element :=
  e.children.toList.find? (fun c => c.tag = tag)

/-- `parent.findall(path)` for a plain tag path: all children with that tag,
in document order. -/
def Element.findall (e : Element) (tag : String) : List Element :=
  e.children.toList.filter (fun c => c.tag = tag)

/-- Event kind of the pull parser. -/
inductive EvKind where
  | start
  | end_
  deriving DecidableEq, Repr

/-- One `(event, elem)` pair of `ElementTree.iterparse`. -/
structure Event where
  kind : EvKind
  elem : Element
  deriving DecidableEq, Repr

def startEv (e : Element) : Event := ⟨.start, e⟩

def endEv (e : Element) : Event := ⟨.end_, e⟩

mutual
/-- The depth-first start/end event stream of one element subtree. -/
def eventsOf : Element → List Event
  | .mk c kids => ⟨.start, .mk c kids⟩ :: eventsOfList kids ++ [⟨.end_, .mk c kids⟩]
def eventsOfList : ElementList → List Event
  | .nil => []
  | .cons e es => eventsOf e ++ eventsOfList es
end

/-- The inner events of an element: everything strictly between its start
and its end event. -/
def innerEvents (e : Element) : List Event := eventsOfList e.children

/-! ### The object graph (`Bio.Tree.PhyloXML` value classes)

Modelled from the spec: `Bio/Tree/PhyloXML.py` is not under `src/`; the
record shapes below follow spec section 3 ("DATA MODEL", "Typed leaf
records ... flat or shallow structured values with fixed, known fields")
together with the exact constructor keywords and field accesses appearing in
`PhyloXMLIO.py` (the `to_*` builders and the writer's attribute/subnode
tables).  Absent optional fields are `none`, list fields default to `[]`. -/

/-- Modelled from the spec: opaque snapshot of a foreign element (spec
section 3, `ForeignNode`; class `Tree.Other`): tag, namespace, attribute
map, value text, ordered children. -/
structure OtherCore where
  tag : String
  ns : String
  attributes : List (String × String)
  value : Option String
  deriving DecidableEq, Repr

mutual
inductive Other where
  | mk (core : OtherCore) (children : OtherList)
  deriving Repr
inductive OtherList where
  | nil
  | cons (o : Other) (os : OtherList)
  deriving Repr
end

mutual
def decEqOther (a b : Other) : Decidable (a = b) :=
  match a, b with
  | .mk c k, .mk c' k' =>
    if h1 : c = c' then
      match decEqOtherList k k' with
      | isTrue h2 => isTrue (by rw [h1, h2])
      | isFalse h2 => isFalse (fun h => by cases h; exact h2 rfl)
    else isFalse (fun h => by cases h; exact h1 rfl)
def decEqOtherList (a b : OtherList) : Decidable (a = b) :=
  match a, b with
  | .nil, .nil => isTrue rfl
  | .nil, .cons _ _ => isFalse (fun h => by cases h)
  | .cons _ _, .nil => isFalse (fun h => by cases h)
  | .cons o os, .cons p ps =>
    match decEqOther o p with
    | isTrue h1 =>
      match decEqOtherList os ps with
      | isTrue h2 => isTrue (by rw [h1, h2])
      | isFalse h2 => isFalse (fun h => by cases h; exact h2 rfl)
    | isFalse h1 => isFalse (fun h => by cases h; exact h1 rfl)
end

instance : DecidableEq Other := decEqOther

instance : DecidableEq OtherList := decEqOtherList

def Other.core : Other → OtherCore
  | .mk c _ => c

def Other.children : Other → OtherList
  | .mk _ k => k

def OtherList.toList : OtherList → List Other
  | .nil => []
  | .cons o os => o :: os.toList

def OtherList.ofList : List Other → OtherList
  | [] => .nil
  | o :: os => .cons o (OtherList.ofList os)

/-- Modelled from the spec: `Tree.Confidence` (value, type). -/
structure Confidence where
  value : Option PyFloat
  type : Option String
  deriving DecidableEq, Repr

/-- Modelled from the spec: `Tree.Accession` (value, source). -/
structure Accession where
  value : String
  source : Option String
  deriving DecidableEq, Repr

/-- Modelled from the spec: `Tree.Id` (value, provider). -/
structure Id where
  value : String
  provider : Option String
  deriving DecidableEq, Repr

/-- Modelled from the spec: `Tree.Uri` (value, desc, type). -/
structure Uri where
  value : String
  desc : Option String
  type : Option String
  deriving DecidableEq, Repr

/-- Modelled from the spec: `Tree.Property`
(value, ref, applies_to, datatype, unit, id_ref). -/
structure Property where
  value : String
  ref : Option String
  applies_to : Option String
  datatype : Option String
  unit : Option String
  id_ref : Option String
  deriving DecidableEq, Repr

/-- Modelled from the spec: `Tree.Annotation`
(desc, confidence, properties, uri, plus the attributes ref/source/
evidence/type accepted as keywords by the writer's attribute table). -/
structure Annotation where
  ref : Option String
  source : Option String
  evidence : Option String
  type : Option String
  desc : Option String
  confidence : Option Confidence
  properties : List Property
  uri : Option Uri
  deriving DecidableEq, Repr

/-- Modelled from the spec: `Tree.MolSeq` (value, is_aligned). -/
structure MolSeq where
  value : String
  is_aligned : Option Bool
  deriving DecidableEq, Repr

/-- Modelled from the spec: `Tree.ProteinDomain` (value, start, end,
confidence, id); `end` is a Lean keyword, hence `end_`. -/
structure ProteinDomain where
  value : String
  start : Int
  end_ : Int
  confidence : Option PyFloat
  id : Option String
  deriving DecidableEq, Repr

/-- Modelled from the spec: `Tree.DomainArchitecture` (length, domains). -/
structure DomainArchitecture where
  length : Int
  domains : List ProteinDomain
  deriving DecidableEq, Repr

/-- Modelled from the spec: `Tree.Sequence` (attributes type/id_ref/
id_source; symbol, accession, name, location, mol_seq, uri,
domain_architecture, annotations, other). -/
structure Sequence where
  type : Option String
  id_ref : Option String
  id_source : Option String
  symbol : Option String
  accession : Option Accession
  name : Option String
  location : Option String
  mol_seq : Option MolSeq
  uri : Option Uri
  domain_architecture : Option DomainArchitecture
  annotations : List Annotation
  other : List Other
  deriving DecidableEq, Repr

/-- Modelled from the spec: `Tree.Taxonomy` (attribute id_source; id, code,
scientific_name, authority, common_names, synonyms, rank, uri, other). -/
structure Taxonomy where
  id_source : Option String
  id : Option Id
  code : Option String
  scientific_name : Option String
  authority : Option String
  common_names : List String
  synonyms : List String
  rank : Option String
  uri : Option Uri
  other : List Other
  deriving DecidableEq, Repr

/-- Modelled from the spec: `Tree.Date` (unit, desc, value, minimum,
maximum). -/
structure Date where
  unit : Option String
  desc : Option String
  value : Option PyFloat
  minimum : Option PyFloat
  maximum : Option PyFloat
  deriving DecidableEq, Repr

/-- Modelled from the spec: `Tree.Point` (geodetic_datum, lat, long, alt,
alt_unit). -/
structure Point where
  geodetic_datum : Option String
  lat : Option PyFloat
  long : Option PyFloat
  alt : Option PyFloat
  alt_unit : Option String
  deriving DecidableEq, Repr

/-- Modelled from the spec: `Tree.Polygon` (points). -/
structure Polygon where
  points : List Point
  deriving DecidableEq, Repr

/-- Modelled from the spec: `Tree.Distribution` (desc, points, polygons). -/
structure Distribution where
  desc : Option String
  points : List Point
  polygons : List Polygon
  deriving DecidableEq, Repr

/-- Modelled from the spec: `Tree.Reference` (doi, desc). -/
structure Reference where
  doi : Option String
  desc : Option String
  deriving DecidableEq, Repr

/-- Modelled from the spec: `Tree.Events` (type, duplications, speciations,
losses, confidence). -/
structure Events where
  type : Option String
  duplications : Option Int
  speciations : Option Int
  losses : Option Int
  confidence : Option Confidence
  deriving DecidableEq, Repr

/-- Modelled from the spec: `Tree.BinaryCharacters` (type, the four counts,
and the four flattened token lists). -/
structure BinaryCharacters where
  type : Option String
  gained_count : Option Int
  lost_count : Option Int
  present_count : Option Int
  absent_count : Option Int
  gained : Option (List String)
  lost : Option (List String)
  present : Option (List String)
  absent : Option (List String)
  deriving DecidableEq, Repr

/-- Modelled from the spec: `Tree.BranchColor` (red, green, blue). -/
structure BranchColor where
  red : Option Int
  green : Option Int
  blue : Option Int
  deriving DecidableEq, Repr

/-- Modelled from the spec: `Tree.CladeRelation` (type, id_ref_0, id_ref_1,
distance, confidence); `to_clade_relation` passes `distance` through as the
raw attribute string. -/
structure CladeRelation where
  type : Option String
  id_ref_0 : Option String
  id_ref_1 : Option String
  distance : Option String
  confidence : Option Confidence
  deriving DecidableEq, Repr

/-- Modelled from the spec: `Tree.SequenceRelation` (type, id_ref_0,
id_ref_1, distance, confidence); here `distance` is `_float`-coerced. -/
structure SequenceRelation where
  type : Option String
  id_ref_0 : Option String
  id_ref_1 : Option String
  distance : Option PyFloat
  confidence : Option Confidence
  deriving DecidableEq, Repr

/-- Modelled from the spec: the non-recursive fields of `Tree.Clade`
(spec section 3, `Node`): optional branch_length/width/name/node_id,
optional color/events/binary_characters/date, the six ordered list fields,
the foreign list, and the `id_source` attribute. -/
structure CladeCore where
  branch_length : Option PyFloat := none
  id_source : Option String := none
  name : Option String := none
  node_id : Option String := none
  width : Option PyFloat := none
  color : Option BranchColor := none
  events : Option Events := none
  binary_characters : Option BinaryCharacters := none
  date : Option Date := none
  confidences : List Confidence := []
  taxonomies : List Taxonomy := []
  sequences : List Sequence := []
  distributions : List Distribution := []
  references : List Reference := []
  properties : List Property := []
  other : List Other := []
  deriving DecidableEq, Repr

mutual
/-- Modelled from the spec: `Tree.Clade`, the recursive entity; its ordered
child list is the sole recursive relationship. -/
inductive Clade where
  | mk (core : CladeCore) (clades : CladeList)
  deriving Repr
inductive CladeList where
  | nil
  | cons (c : Clade) (cs : CladeList)
  deriving Repr
end

mutual
def decEqClade (a b : Clade) : Decidable (a = b) :=
  match a, b with
  | .mk c k, .mk c' k' =>
    if h1 : c = c' then
      match decEqCladeList k k' with
      | isTrue h2 => isTrue (by rw [h1, h2])
      | isFalse h2 => isFalse (fun h => by cases h; exact h2 rfl)
    else isFalse (fun h => by cases h; exact h1 rfl)
def decEqCladeList (a b : CladeList) : Decidable (a = b) :=
  match a, b with
  | .nil, .nil => isTrue rfl
  | .nil, .cons _ _ => isFalse (fun h => by cases h)
  | .cons _ _, .nil => isFalse (fun h => by cases h)
  | .cons c cs, .cons d ds =>
    match decEqClade c d with
    | isTrue h1 =>
      match decEqCladeList cs ds with
      | isTrue h2 => isTrue (by rw [h1, h2])
      | isFalse h2 => isFalse (fun h => by cases h; exact h2 rfl)
    | isFalse h1 => isFalse (fun h => by cases h; exact h1 rfl)
end

instance : DecidableEq Clade := decEqClade

instance : DecidableEq CladeList := decEqCladeList

def Clade.core : Clade → CladeCore
  | .mk c _ => c

def Clade.clades : Clade → CladeList
  | .mk _ k => k

/-- Update the non-recursive fields of a clade. -/
def Clade.withCore (c : Clade) (f : CladeCore → CladeCore) : Clade :=
  match c with
  | .mk co ks => .mk (f co) ks

def CladeList.toList : CladeList → List Clade
  | .nil => []
  | .cons c cs => c :: cs.toList

def CladeList.ofList : List Clade → CladeList
  | [] => .nil
  | c :: cs => .cons c (CladeList.ofList cs)

/-- `clade.clades.append(subclade)`: append one child at the end. -/
def CladeList.push : CladeList → Clade → CladeList
  | .nil, c => .cons c .nil
  | .cons x xs, c => .cons x (xs.push c)

def Clade.appendChild (c : Clade) (child : Clade) : Clade :=
  match c with
  | .mk co ks => .mk co (ks.push child)

/-- Modelled from the spec: `Tree.Phylogeny` (spec section 3, `Tree`):
boolean flags rooted/rerootable, the branch_length_unit/type attributes,
optional name/description/date/id, the four ordered lists, at most one root
clade, and the foreign list. -/
structure Phylogeny where
  rooted : Option Bool := none
  rerootable : Option Bool := none
  branch_length_unit : Option String := none
  type : Option String := none
  name : Option String := none
  description : Option String := none
  date : Option Date := none
  id : Option Id := none
  confidences : List Confidence := []
  properties : List Property := []
  clade_relations : List CladeRelation := []
  sequence_relations : List SequenceRelation := []
  clade : Option Clade := none
  other : List Other := []
  deriving DecidableEq, Repr

/-- Modelled from the spec: `Tree.Phyloxml` — top-level attribute
passthrough plus ordered trees and ordered foreign nodes. -/
structure Phyloxml where
  attributes : List (String × String) := []
  phylogenies : List Phylogeny := []
  other : List Other := []
  deriving DecidableEq, Repr

/-! ### Child-lookup helpers (source lines 100-133) -/

/-- `get_child_as(parent, tag, construct)` (lines 100-107). -/
def get_child_as (parent : Element) (tag : String)
    (construct : Element → Except PyErr α) : Except PyErr (Option α) :=
  match parent.find (_ns tag) with
  | none => .ok none
  | some child => do
      let v ← construct child
      .ok (some v)

/-- `get_child_text(parent, tag, construct)` (lines 109-116):
`child.text and construct(child.text) or None` — both the text and the
constructed value go through Python truthiness, so empty/zero results
collapse to `None`. -/
def get_child_text (parent : Element) (tag : String)
    (construct : String → Except PyErr α) (falsy : α → Bool) :
    Except PyErr (Option α) :=
  match parent.find (_ns tag) with
  | none => .ok none
  | some child =>
    match child.text with
    | none => .ok none
    | some t =>
      if t = "" then .ok none
      else do
        let v ← construct t
        .ok (if falsy v then none else some v)

/-- `get_children_as(parent, tag, construct)` (lines 118-124). -/
def get_children_as (parent : Element) (tag : String)
    (construct : Element → Except PyErr α) : Except PyErr (List α) :=
  (parent.findall (_ns tag)).mapM construct

/-- `get_children_text(parent, tag, construct)` (lines 126-133): children
are filtered on truthy text; the constructed values are kept as-is. -/
def get_children_text (parent : Element) (tag : String)
    (construct : String → Except PyErr α) : Except PyErr (List α) :=
  ((parent.findall (_ns tag)).filterMap
    (fun c => match c.text with
      | none => none
      | some t => if t = "" then none else some t)).mapM construct

/-- The default `construct=unicode`: identity on strings; `''` is falsy. -/
def unicodeC (s : String) : Except PyErr String := .ok s

def strFalsy (s : String) : Bool := s = ""

/-- `construct=int`: raises `ValueError` on a bad literal; `0` is falsy. -/
def intC (s : String) : Except PyErr Int :=
  match pyInt? s with
  | some n => .ok n
  | none => .error (.valueError ("invalid literal for int() with base 10: " ++ s))

def intFalsy (n : Int) : Bool := n = 0

/-- `construct=float`: raises `ValueError` on a bad literal; `0.0` falsy. -/
def floatC (s : String) : Except PyErr PyFloat :=
  match pyFloat? s with
  | some f => .ok f
  | none => .error (.valueError ("could not convert string to float: " ++ s))

/-- `int(elem.get(key))`: `TypeError` on a missing attribute, `ValueError`
on a bad literal. -/
def pyIntOf (x : Option String) : Except PyErr Int :=
  match x with
  | none =>
    .error (.typeError "int() argument must be a string or a number, not NoneType")
  | some t => intC t

/-- `elem.text.strip()`: raises `AttributeError` when the text is `None`. -/
def textStrip (e : Element) : Except PyErr String :=
  match e.text with
  | none => .error (.attributeError "NoneType object has no attribute strip")
  | some t => .ok (pyStrip t)

/-- Python `a or b` on optional strings: `b` when `a` is `None` or empty. -/
def pyOr (a b : Option String) : Option String :=
  match a with
  | none => b
  | some t => if t = "" then b else some t

/-- Attribute lookup in a raw attribute list. -/
def aget (attrs : List (String × String)) (key : String) : Option String :=
  (attrs.find? (fun kv => kv.1 = key)).map (·.2)

/-- `SomeClass(**attrs)`: binding an attribute dict as keyword arguments
raises `TypeError` when a key is not an accepted keyword. -/
def attrsAllowed (attrs : List (String × String)) (allowed : List String) :
    Except PyErr Unit :=
  match attrs.find? (fun kv => !allowed.contains kv.1) with
  | some kv => .error (.typeError ("unexpected keyword argument " ++ kv.1))
  | none => .ok ()

/-! ### The type-conversion table: `to_*` builders (source lines 396-575) -/

mutual
/-- `Parser.to_other` (lines 396-401): snapshot a foreign element. -/
def to_other (e : Element) : Except PyErr Other :=
  match e with
  | .mk c kids => do
    let (ns, localtag) ← unpack2 (split_namespace c.tag)
    let children ← to_other_list kids
    .ok (.mk ⟨localtag, ns, c.attrib, truthyStrip c.text⟩ children)
/-- Children of a foreign snapshot, in document order. -/
def to_other_list : ElementList → Except PyErr OtherList
  | .nil => .ok .nil
  | .cons e es => do
    let o ← to_other e
    let os ← to_other_list es
    .ok (.cons o os)
end

/-- `Parser.to_accession` (lines 405-407). -/
def to_accession (e : Element) : Except PyErr Accession := do
  let v ← textStrip e
  .ok ⟨v, e.get "source"⟩

/-- `Parser.to_confidence` (lines 447-451). -/
def to_confidence (e : Element) : Except PyErr Confidence :=
  .ok ⟨_float e.text, e.get "type"⟩

/-- `Parser.to_uri` (lines 571-575). -/
def to_uri (e : Element) : Except PyErr Uri := do
  let v ← textStrip e
  .ok ⟨v, collapse_wspace (e.get "desc"), e.get "type"⟩

/-- `Parser.to_property` (lines 519-524). -/
def to_property (e : Element) : Except PyErr Property := do
  let v ← textStrip e
  .ok ⟨v, e.get "ref", e.get "applies_to", e.get "datatype",
    e.get "unit", e.get "id_ref"⟩

/-- `Parser.to_annotation` (lines 409-416). -/
def to_annotation (e : Element) : Except PyErr Annotation := do
  let dsc ← get_child_text e "desc" unicodeC strFalsy
  let conf ← get_child_as e "confidence" to_confidence
  let props ← get_children_as e "property" to_property
  let u ← get_child_as e "uri" to_uri
  attrsAllowed e.attrib ["ref", "source", "evidence", "type"]
  .ok ⟨e.get "ref", e.get "source", e.get "evidence", e.get "type",
    collapse_wspace dsc, conf, props, u⟩

/-- `Parser.to_binary_characters` (lines 418-432). -/
def to_binary_characters (e : Element) : Except PyErr BinaryCharacters := do
  let bc_getter : Element → Except PyErr (List String) :=
    fun el' => get_children_text el' "bc" unicodeC
  let gained ← get_child_as e "gained" bc_getter
  let lost ← get_child_as e "lost" bc_getter
  let present ← get_child_as e "present" bc_getter
  let absent ← get_child_as e "absent" bc_getter
  .ok ⟨e.get "type", _int (e.get "gained_count"), _int (e.get "lost_count"),
    _int (e.get "present_count"), _int (e.get "absent_count"),
    gained, lost, present, absent⟩

/-- `Parser.to_clade_relation` (lines 434-439); note `distance` stays the
raw attribute string here. -/
def to_clade_relation (e : Element) : Except PyErr CladeRelation := do
  let conf ← get_child_as e "confidence" to_confidence
  .ok ⟨e.get "type", e.get "id_ref_0", e.get "id_ref_1",
    e.get "distance", conf⟩

/-- `Parser.to_color` (lines 441-445). -/
def to_color (e : Element) : Except PyErr BranchColor := do
  let red ← get_child_text e "red" intC intFalsy
  let green ← get_child_text e "green" intC intFalsy
  let blue ← get_child_text e "blue" intC intFalsy
  .ok ⟨red, green, blue⟩

/-- `Parser.to_date` (lines 453-461). -/
def to_date (e : Element) : Except PyErr Date := do
  let dsc ← get_child_text e "desc" unicodeC strFalsy
  let v ← get_child_text e "value" floatC pyFloatIsZero
  let mn ← get_child_text e "minimum" floatC pyFloatIsZero
  let mx ← get_child_text e "maximum" floatC pyFloatIsZero
  .ok ⟨e.get "unit", collapse_wspace dsc, v, mn, mx⟩

/-- `Parser.to_point` (lines 505-512). -/
def to_point (e : Element) : Except PyErr Point := do
  let lat ← get_child_text e "lat" floatC pyFloatIsZero
  let lng ← get_child_text e "long" floatC pyFloatIsZero
  let alt ← get_child_text e "alt" floatC pyFloatIsZero
  .ok ⟨e.get "geodetic_datum", lat, lng, alt, e.get "alt_unit"⟩

/-- `Parser.to_polygon` (lines 514-517). -/
def to_polygon (e : Element) : Except PyErr Polygon := do
  let pts ← get_children_as e "point" to_point
  .ok ⟨pts⟩

/-- `Parser.to_distribution` (lines 463-468). -/
def to_distribution (e : Element) : Except PyErr Distribution := do
  let dsc ← get_child_text e "desc" unicodeC strFalsy
  let pts ← get_children_as e "point" to_point
  let pgs ← get_children_as e "polygon" to_polygon
  .ok ⟨collapse_wspace dsc, pts, pgs⟩

/-- `Parser.to_domain` (lines 470-476). -/
def to_domain (e : Element) : Except PyErr ProteinDomain := do
  let v ← textStrip e
  let frm ← pyIntOf (e.get "from")
  let to_ ← pyIntOf (e.get "to")
  .ok ⟨v, frm - 1, to_, _float (e.get "confidence"), e.get "id"⟩

/-- `Parser.to_domain_architecture` (lines 478-482). -/
def to_domain_architecture (e : Element) : Except PyErr DomainArchitecture := do
  let len ← pyIntOf (e.get "length")
  let doms ← get_children_as e "domain" to_domain
  .ok ⟨len, doms⟩

/-- `Parser.to_events` (lines 484-491). -/
def to_events (e : Element) : Except PyErr Events := do
  let ty ← get_child_text e "type" unicodeC strFalsy
  let dup ← get_child_text e "duplications" intC intFalsy
  let spc ← get_child_text e "speciations" intC intFalsy
  let lss ← get_child_text e "losses" intC intFalsy
  let conf ← get_child_as e "confidence" to_confidence
  .ok ⟨ty, dup, spc, lss, conf⟩

/-- `Parser.to_id` (lines 493-496); `provider or type` via truthiness. -/
def to_id (e : Element) : Except PyErr Id := do
  let provider := pyOr (e.get "provider") (e.get "type")
  let v ← textStrip e
  .ok ⟨v, provider⟩

/-- `Parser.to_mol_seq` (lines 498-503). -/
def to_mol_seq (e : Element) : Except PyErr MolSeq := do
  let ia ← match e.get "is_aligned" with
    | none => pure (none : Option Bool)
    | some s => do
        let b ← str2bool s
        pure (some b)
  let v ← textStrip e
  .ok ⟨v, ia⟩

/-- `Parser.to_reference` (lines 526-530); `desc` is not collapsed here. -/
def to_reference (e : Element) : Except PyErr Reference := do
  let dsc ← get_child_text e "desc" unicodeC strFalsy
  .ok ⟨e.get "doi", dsc⟩

/-- `Parser.to_sequence` (lines 532-547). -/
def to_sequence (e : Element) : Except PyErr Sequence := do
  let symbol ← get_child_text e "symbol" unicodeC strFalsy
  let acc ← get_child_as e "accession" to_accession
  let nm ← get_child_text e "name" unicodeC strFalsy
  let loc ← get_child_text e "location" unicodeC strFalsy
  let ms ← get_child_as e "mol_seq" to_mol_seq
  let u ← get_child_as e "uri" to_uri
  let da ← get_child_as e "domain_architecture" to_domain_architecture
  let anns ← get_children_as e "annotation" to_annotation
  attrsAllowed e.attrib ["type", "id_ref", "id_source"]
  .ok ⟨e.get "type", e.get "id_ref", e.get "id_source", symbol, acc,
    collapse_wspace nm, loc, ms, u, da, anns, []⟩

/-- `Parser.to_sequence_relation` (lines 549-554). -/
def to_sequence_relation (e : Element) : Except PyErr SequenceRelation := do
  let conf ← get_child_as e "confidence" to_confidence
  .ok ⟨e.get "type", e.get "id_ref_0", e.get "id_ref_1",
    _float (e.get "distance"), conf⟩

/-- `Parser.to_taxonomy` (lines 556-569). -/
def to_taxonomy (e : Element) : Except PyErr Taxonomy := do
  let i ← get_child_as e "id" to_id
  let code ← get_child_text e "code" unicodeC strFalsy
  let sci ← get_child_text e "scientific_name" unicodeC strFalsy
  let auth ← get_child_text e "authority" unicodeC strFalsy
  let cns ← get_children_text e "common_name" unicodeC
  let syns ← get_children_text e "synonym" unicodeC
  let rank ← get_child_text e "rank" unicodeC strFalsy
  let u ← get_child_as e "uri" to_uri
  attrsAllowed e.attrib ["id_source"]
  .ok ⟨e.get "id_source", i, code, sci, auth, cns, syns, rank, u, []⟩

/-! ### `Parser._parse_clade` (source lines 328-394)

The source's recursion — one `_parse_clade` invocation per nested `clade`
element, each owning a local `tag_stack` — is represented by an explicit
stack of frames: `cur`/`stack` are the current invocation's partially built
clade and local tag stack, and `frames` holds the suspended outer
invocations (innermost first).  `cladeStep` handles exactly one `(event,
elem)` pair with the branches of the source loop, in source order. -/

/-- `Parser._clade_complex_types` (line 328). -/
def clade_complex_types : List String :=
  ["color", "events", "binary_characters", "date"]

/-- The tags of `Parser._clade_list_types` (lines 329-337). -/
def clade_list_tags : List String :=
  ["confidence", "taxonomy", "sequence", "distribution", "reference",
   "property"]

/-- `Parser._clade_tracked_tags` (lines 338-340). -/
def clade_tracked_tags : List String :=
  clade_complex_types ++ clade_list_tags ++
    ["branch_length", "name", "node_id", "width"]

/-- Lines 344-346: convert a `branch_length` attribute with the strict
builtin `float` (raising `ValueError` on a bad literal), then
`Tree.Clade(**parent.attrib)`.  The constructor itself is modelled from the
spec (the class is not under `src/`): it binds the clade attributes used by
this module and defaults every other field to absent/empty. -/
def clade_from_element (parent : Element) : Except PyErr Clade := do
  let bl ← match parent.get "branch_length" with
    | none => pure (none : Option PyFloat)
    | some s => do
        let f ← floatC s
        pure (some f)
  attrsAllowed parent.attrib ["branch_length", "id_source"]
  .ok (.mk { branch_length := bl, id_source := parent.get "id_source" } .nil)

/-- State of the (possibly nested) active `_parse_clade` invocations. -/
structure CState where
  cur : Clade
  stack : List String
  frames : List (Clade × List String)

/-- Result of one event step inside `_parse_clade`. -/
inductive CStep where
  | cont (st : CState)
  | done (c : Clade)

/-- One iteration of the `_parse_clade` event loop (lines 349-393). -/
def cladeStep (st : CState) (ev : Event) : Except PyErr CStep := do
  let (ns, tag) ← unpack2 (split_namespace ev.elem.tag)
  match ev.kind with
  | .start =>
    if tag = "clade" then do
      -- line 352-355: recurse; the new invocation becomes current
      let sub ← clade_from_element ev.elem
      .ok (.cont ⟨sub, [], (st.cur, st.stack) :: st.frames⟩)
    else if clade_tracked_tags.contains tag then
      -- line 356-357
      .ok (.cont ⟨st.cur, tag :: st.stack, st.frames⟩)
    else
      .ok (.cont st)
  | .end_ =>
    if tag = "clade" then
      -- lines 359-361: `break`; return `cur` to the suspended caller,
      -- which appends it (line 354) and resumes its own loop
      match st.frames with
      | [] => .ok (.done st.cur)
      | (p, pstack) :: rest => .ok (.cont ⟨p.appendChild st.cur, pstack, rest⟩)
    else
      match st.stack with
      | [] =>
        -- line 362: `tag_stack[-1]` on an empty list
        .error (.indexError "list index out of range")
      | top :: stackRest =>
        if tag ≠ top then
          -- line 362-363
          .ok (.cont st)
        else if tag = "color" then do
          let v ← to_color ev.elem
          .ok (.cont ⟨st.cur.withCore (fun c => {c with color := some v}),
            stackRest, st.frames⟩)
        else if tag = "events" then do
          let v ← to_events ev.elem
          .ok (.cont ⟨st.cur.withCore (fun c => {c with events := some v}),
            stackRest, st.frames⟩)
        else if tag = "binary_characters" then do
          let v ← to_binary_characters ev.elem
          .ok (.cont ⟨st.cur.withCore
            (fun c => {c with binary_characters := some v}),
            stackRest, st.frames⟩)
        else if tag = "date" then do
          let v ← to_date ev.elem
          .ok (.cont ⟨st.cur.withCore (fun c => {c with date := some v}),
            stackRest, st.frames⟩)
        else if tag = "confidence" then do
          let v ← to_confidence ev.elem
          .ok (.cont ⟨st.cur.withCore
            (fun c => {c with confidences := c.confidences ++ [v]}),
            stackRest, st.frames⟩)
        else if tag = "taxonomy" then do
          let v ← to_taxonomy ev.elem
          .ok (.cont ⟨st.cur.withCore
            (fun c => {c with taxonomies := c.taxonomies ++ [v]}),
            stackRest, st.frames⟩)
        else if tag = "sequence" then do
          let v ← to_sequence ev.elem
          .ok (.cont ⟨st.cur.withCore
            (fun c => {c with sequences := c.sequences ++ [v]}),
            stackRest, st.frames⟩)
        else if tag = "distribution" then do
          let v ← to_distribution ev.elem
          .ok (.cont ⟨st.cur.withCore
            (fun c => {c with distributions := c.distributions ++ [v]}),
            stackRest, st.frames⟩)
        else if tag = "reference" then do
          let v ← to_reference ev.elem
          .ok (.cont ⟨st.cur.withCore
            (fun c => {c with references := c.references ++ [v]}),
            stackRest, st.frames⟩)
        else if tag = "property" then do
          let v ← to_property ev.elem
          .ok (.cont ⟨st.cur.withCore
            (fun c => {c with properties := c.properties ++ [v]}),
            stackRest, st.frames⟩)
        else if tag = "branch_length" then
          -- lines 372-380; the modelled Clade always has the attribute,
          -- so `hasattr` reduces to the not-None test
          if st.cur.core.branch_length ≠ none then
            .error (.phyloXMLError
              ("Attribute branch_length was already set for this Clade; " ++
               "overwriting the previous value."))
          else
            .ok (.cont ⟨st.cur.withCore
              (fun c => {c with branch_length := _float ev.elem.text}),
              stackRest, st.frames⟩)
        else if tag = "width" then
          .ok (.cont ⟨st.cur.withCore
            (fun c => {c with width := _float ev.elem.text}),
            stackRest, st.frames⟩)
        else if tag = "name" then
          .ok (.cont ⟨st.cur.withCore
            (fun c => {c with name := collapse_wspace ev.elem.text}),
            stackRest, st.frames⟩)
        else if tag = "node_id" then
          .ok (.cont ⟨st.cur.withCore
            (fun c => {c with node_id := truthyStrip ev.elem.text}),
            stackRest, st.frames⟩)
        else if ns ≠ phyNS then do
          -- lines 387-390 ("Unknown tags")
          let o ← to_other ev.elem
          .ok (.cont ⟨st.cur.withCore
            (fun c => {c with other := c.other ++ [o]}),
            stackRest, st.frames⟩)
        else
          -- lines 391-393
          .error (.phyloXMLError ("Misidentified tag: " ++ tag))

/-- Stream exhaustion: every suspended invocation's `for` loop ends, each
returns its clade to its caller, which appends it (lines 353-354). -/
def cladeUnwind (st : CState) : Clade :=
  st.frames.foldl (fun c pf => pf.1.appendChild c) st.cur

/-- Run the `_parse_clade` loop over a stream; on `break` the unconsumed
remainder is returned with the finished clade. -/
def cladeRun (st : CState) : List Event → Except PyErr (Clade × List Event)
  | [] => .ok (cladeUnwind st, [])
  | e :: rest =>
    match cladeStep st e with
    | .error er => .error er
    | .ok (.cont st') => cladeRun st' rest
    | .ok (.done c) => .ok (c, rest)

/-- `Parser._parse_clade(parent)` invoked after `parent`'s start event was
consumed: seed the clade from the attributes, then loop. -/
def _parse_clade (parent : Element) (evs : List Event) :
    Except PyErr (Clade × List Event) := do
  let c ← clade_from_element parent
  cladeRun ⟨c, [], []⟩ evs

/-! ### `Parser._parse_phylogeny` (source lines 280-326) -/

/-- Lines 287-288: `Tree.Phylogeny(**dict_str2bool(parent.attrib,
['rooted', 'rerootable']))`.  The constructor itself is modelled from the
spec: it binds the phylogeny attributes used by this module. -/
def phylogeny_from_attrs (attrs : List (String × String)) :
    Except PyErr Phylogeny := do
  let d ← dict_str2bool attrs ["rooted", "rerootable"]
  let getB : String → Option Bool := fun k =>
    match d.find? (fun kv => kv.1 = k) with
    | some (_, .b b) => some b
    | _ => none
  let getS : String → Option String := fun k =>
    match d.find? (fun kv => kv.1 = k) with
    | some (_, .s s) => some s
    | _ => none
  match d.find? (fun kv =>
      !(["rooted", "rerootable", "branch_length_unit", "type"].contains kv.1)) with
  | some kv => .error (.typeError ("unexpected keyword argument " ++ kv.1))
  | none => .ok { rooted := getB "rooted", rerootable := getB "rerootable",
                  branch_length_unit := getS "branch_length_unit",
                  type := getS "type" }

/-- Result of one event step of the `_parse_phylogeny` loop. -/
inductive PhyloStep1 where
  /-- Loop continues at the phylogeny level. -/
  | cont (phy : Phylogeny)
  /-- A `clade` start: control passed into `_parse_clade` (line 302). -/
  | enter (phy : Phylogeny) (st : CState)
  /-- The phylogeny's own end tag: `break` (lines 305-307). -/
  | done (phy : Phylogeny)

/-- One iteration of the `_parse_phylogeny` event loop (lines 297-325).
The phylogeny level keeps no tag stack, so every `end` event at any depth
below the phylogeny that is not consumed by `_parse_clade` is dispatched
here. -/
def phyloStep1 (phy : Phylogeny) (ev : Event) : Except PyErr PhyloStep1 := do
  let (ns, tag) ← unpack2 (split_namespace ev.elem.tag)
  match ev.kind with
  | .start =>
    if tag = "clade" then
      -- lines 299-303
      if phy.clade.isSome then
        .error (.assertionError "Phylogeny object should only have 1 clade")
      else do
        let c ← clade_from_element ev.elem
        .ok (.enter phy ⟨c, [], []⟩)
    else
      .ok (.cont phy)
  | .end_ =>
    if tag = "phylogeny" then
      .ok (.done phy)
    else if tag = "date" then do
      let v ← to_date ev.elem
      .ok (.cont {phy with date := some v})
    else if tag = "id" then do
      let v ← to_id ev.elem
      .ok (.cont {phy with id := some v})
    else if tag = "confidence" then do
      let v ← to_confidence ev.elem
      .ok (.cont {phy with confidences := phy.confidences ++ [v]})
    else if tag = "property" then do
      let v ← to_property ev.elem
      .ok (.cont {phy with properties := phy.properties ++ [v]})
    else if tag = "clade_relation" then do
      let v ← to_clade_relation ev.elem
      .ok (.cont {phy with clade_relations := phy.clade_relations ++ [v]})
    else if tag = "sequence_relation" then do
      let v ← to_sequence_relation ev.elem
      .ok (.cont {phy with sequence_relations := phy.sequence_relations ++ [v]})
    else if tag = "name" then
      .ok (.cont {phy with name := collapse_wspace ev.elem.text})
    else if tag = "description" then
      .ok (.cont {phy with description := collapse_wspace ev.elem.text})
    else if ns ≠ phyNS then do
      let o ← to_other ev.elem
      .ok (.cont {phy with other := phy.other ++ [o]})
    else
      .error (.phyloXMLError ("Misidentified tag: " ++ tag))

/-- Run the `_parse_phylogeny` loop; while a `CState` is present, control
is inside `_parse_clade` and events go to `cladeStep`; the clade returned
on its `break` is assigned to `phylogeny.clade` (line 302). -/
def phyloRun : Phylogeny → Option CState → List Event →
    Except PyErr (Phylogeny × List Event)
  | phy, none, [] => .ok (phy, [])
  | phy, some st, [] => .ok ({phy with clade := some (cladeUnwind st)}, [])
  | phy, some st, e :: rest =>
    match cladeStep st e with
    | .error er => .error er
    | .ok (.cont st') => phyloRun phy (some st') rest
    | .ok (.done c) => phyloRun {phy with clade := some c} none rest
  | phy, none, e :: rest =>
    match phyloStep1 phy e with
    | .error er => .error er
    | .ok (.done phy') => .ok (phy', rest)
    | .ok (.enter phy' st) => phyloRun phy' (some st) rest
    | .ok (.cont phy') => phyloRun phy' none rest

/-- `Parser._parse_phylogeny(parent)` invoked after `parent`'s start event
was consumed. -/
def _parse_phylogeny (parent : Element) (evs : List Event) :
    Except PyErr (Phylogeny × List Event) := do
  let phy ← phylogeny_from_attrs parent.attrib
  phyloRun phy none evs

/-! ### The two read entry points (source lines 207-276) -/

/-- One resumption of the lazy generator `Parser.parse` (lines 271-276):
advance to the next `phylogeny` start event, fully parse that phylogeny,
and suspend, returning it with the untouched remainder of the stream.
`none` means the stream was exhausted (`StopIteration`). -/
def parse_step : List Event → Except PyErr (Option (Phylogeny × List Event))
  | [] => .ok none
  | e :: rest =>
    if e.kind = .start ∧ e.elem.tag = _ns "phylogeny" then do
      let (phy, rem) ← _parse_phylogeny e.elem rest
      .ok (some (phy, rem))
    else
      parse_step rest

/-- Result of one top-level event step of `Parser.read` (lines 252-268). -/
inductive ReadStep1 where
  | cont (px : Phyloxml) (depth : Int)
  /-- A recognised `phylogeny` start: control enters `_parse_phylogeny`. -/
  | enterPhy (elem : Element)

/-- One iteration of the `Parser.read` loop at top level: maintain
`other_depth` for foreign subtrees and snapshot a foreign subtree when its
depth returns to zero. -/
def readStep1 (px : Phyloxml) (depth : Int) (ev : Event) :
    Except PyErr ReadStep1 := do
  let (ns, localtag) ← unpack2 (split_namespace ev.elem.tag)
  match ev.kind with
  | .start =>
    if ns ≠ phyNS then
      .ok (.cont px (depth + 1))
    else if localtag = "phylogeny" then
      .ok (.enterPhy ev.elem)
    else
      .ok (.cont px depth)
  | .end_ =>
    if ns ≠ phyNS then
      let depth' := depth - 1
      if depth' = 0 then do
        let o ← to_other ev.elem
        .ok (.cont {px with other := px.other ++ [o]} depth')
      else
        .ok (.cont px depth')
    else
      .ok (.cont px depth)

/-- Run the `Parser.read` loop; with an active phylogeny state, events are
delegated to the `_parse_phylogeny`/`_parse_clade` machinery, and the
finished phylogeny is appended to the document's tree list (line 260). -/
def readRun : Phyloxml → Int → Option (Phylogeny × Option CState) →
    List Event → Except PyErr Phyloxml
  | px, _, none, [] => .ok px
  | px, _, some (phy, none), [] =>
    .ok {px with phylogenies := px.phylogenies ++ [phy]}
  | px, _, some (phy, some st), [] =>
    .ok {px with phylogenies :=
      px.phylogenies ++ [{phy with clade := some (cladeUnwind st)}]}
  | px, d, some (phy, some st), e :: rest =>
    match cladeStep st e with
    | .error er => .error er
    | .ok (.cont st') => readRun px d (some (phy, some st')) rest
    | .ok (.done c) => readRun px d (some ({phy with clade := some c}, none)) rest
  | px, d, some (phy, none), e :: rest =>
    match phyloStep1 phy e with
    | .error er => .error er
    | .ok (.done phy') =>
      readRun {px with phylogenies := px.phylogenies ++ [phy']} d none rest
    | .ok (.enter phy' st) => readRun px d (some (phy', some st)) rest
    | .ok (.cont phy') => readRun px d (some (phy', none)) rest
  | px, d, none, e :: rest =>
    match readStep1 px d e with
    | .error er => .error er
    | .ok (.cont px' d') => readRun px' d' none rest
    | .ok (.enterPhy elem) =>
      match phylogeny_from_attrs elem.attrib with
      | .error er => .error er
      | .ok phy0 => readRun px d (some (phy0, none)) rest

/-- `read(file)` / `Parser.read` (lines 207-269): the constructor consumes
the root's start event (line 243) and seeds the document from the root's
attributes with `local`-ised keys (lines 249-250); then the loop consumes
the remaining events (the root's own end event matches no branch). -/
def read (root : Element) : Except PyErr Phyloxml := do
  let attrs ← root.attrib.mapM (fun kv => do
    let k ← local_ kv.1
    pure (k, kv.2))
  readRun ⟨attrs, [], []⟩ 0 none (innerEvents root ++ [endEv root])

/-! ### The writer (source lines 584-857)

`Writer.__init__` builds an ElementTree from the object graph and
`Writer.write` serialises it; re-reading that output is modelled by running
the parser over the event stream of the element tree built here (the
byte-level XML round trip belongs to the external ElementTree layer).
`_handle_complex`/`_handle_simple` instantiations become one function per
type, with the attribute and subnode tables transcribed in source order. -/

/-- `serialize` on a string. -/
def serialize_str (s : String) : String := s

/-- `serialize` on a bool: `unicode(value).lower()`. -/
def serialize_bool (b : Bool) : String := if b then "true" else "false"

/-- ASCII upper-casing of a literal. -/
def upperStr (s : String) : String := String.mk (s.toList.map Char.toUpper)

/-- `serialize` on a float: `unicode(value).upper()`; the abstract `PyFloat`
renders as its upper-cased literal. -/
def serialize_float (f : PyFloat) : String := upperStr f.lit

/-- `serialize` on an int: `unicode(value)`. -/
def serialize_int (n : Int) : String := toString n

/-- `serialize(None)` falls through to `unicode(None)`. -/
def serialize_opt_float (x : Option PyFloat) : String :=
  match x with
  | none => "None"
  | some f => serialize_float f

/-- `_clean_attrib`: ordered attribute pairs with absent fields omitted. -/
def optAttrs (pairs : List (String × Option String)) : List (String × String) :=
  pairs.filterMap (fun kv => kv.2.map (fun v => (kv.1, v)))

/-- An optional singular subnode: emitted only if present. -/
def optChild (x : Option α) (f : α → Except PyErr Element) :
    Except PyErr (List Element) :=
  match x with
  | none => .ok []
  | some v => do
    let e ← f v
    .ok [e]

/-- `_handle_simple(tag)` applied to an already serialised text. -/
def w_simple (tag : String) (text : String) : Element :=
  el (_ns tag) [] (some text) []

mutual
/-- `Writer.other` (lines 672-677): re-emit a foreign node unchanged. -/
def w_other (o : Other) : Element :=
  match o with
  | .mk c kids => .mk ⟨_ns c.tag c.ns, c.attributes, c.value⟩ (w_other_list kids)
def w_other_list : OtherList → ElementList
  | .nil => .nil
  | .cons o os => .cons (w_other o) (w_other_list os)
end

/-- `Writer.accession` (lines 712-713). -/
def w_accession (a : Accession) : Element :=
  el (_ns "accession") (optAttrs [("source", a.source.map serialize_str)])
    (some (serialize_str a.value)) []

/-- `Writer.confidence` (lines 742-743); a `None` value serialises as the
literal `None` text. -/
def w_confidence (c : Confidence) : Element :=
  el (_ns "confidence") (optAttrs [("type", c.type.map serialize_str)])
    (some (serialize_opt_float c.value)) []

/-- `Writer.id` (line 777). -/
def w_id (i : Id) : Element :=
  el (_ns "id") (optAttrs [("provider", i.provider.map serialize_str)])
    (some (serialize_str i.value)) []

/-- `Writer.uri` (line 825). -/
def w_uri (u : Uri) : Element :=
  el (_ns "uri") (optAttrs [("desc", u.desc.map serialize_str),
    ("type", u.type.map serialize_str)]) (some (serialize_str u.value)) []

/-- `Writer.property` (lines 789-791). -/
def w_property (p : Property) : Element :=
  el (_ns "property") (optAttrs [("ref", p.ref.map serialize_str),
    ("unit", p.unit.map serialize_str),
    ("datatype", p.datatype.map serialize_str),
    ("applies_to", p.applies_to.map serialize_str),
    ("id_ref", p.id_ref.map serialize_str)])
    (some (serialize_str p.value)) []

/-- `Writer.annotation` (lines 715-721). -/
def w_annotation (a : Annotation) : Except PyErr Element := do
  let u ← optChild a.uri (fun x => .ok (w_uri x))
  .ok (el (_ns "annotation")
    (optAttrs [("ref", a.ref.map serialize_str),
      ("source", a.source.map serialize_str),
      ("evidence", a.evidence.map serialize_str),
      ("type", a.type.map serialize_str)])
    none
    ((a.desc.map (fun d => w_simple "desc" (serialize_str d))).toList ++
     (a.confidence.map w_confidence).toList ++
     a.properties.map w_property ++ u))

/-- `Writer.binary_characters` (lines 723-734): iterating a `None` token
list raises `TypeError`. -/
def w_binary_characters (b : BinaryCharacters) : Except PyErr Element := do
  let sub : String → Option (List String) → Except PyErr Element :=
    fun tag toks =>
      match toks with
      | none => .error (.typeError "NoneType object is not iterable")
      | some ts => .ok (el (_ns tag) [] none (ts.map (fun t => w_simple "bc" (serialize_str t))))
  let g ← sub "gained" b.gained
  let l ← sub "lost" b.lost
  let p ← sub "present" b.present
  let a ← sub "absent" b.absent
  .ok (el (_ns "binary_characters")
    (optAttrs [("type", b.type.map serialize_str),
      ("gained_count", b.gained_count.map serialize_int),
      ("lost_count", b.lost_count.map serialize_int),
      ("present_count", b.present_count.map serialize_int),
      ("absent_count", b.absent_count.map serialize_int)])
    none [g, l, p, a])

/-- `Writer.clade_relation` (lines 736-738). -/
def w_clade_relation (r : CladeRelation) : Element :=
  el (_ns "clade_relation")
    (optAttrs [("id_ref_0", r.id_ref_0.map serialize_str),
      ("id_ref_1", r.id_ref_1.map serialize_str),
      ("distance", r.distance.map serialize_str),
      ("type", r.type.map serialize_str)])
    none ((r.confidence.map w_confidence).toList)

/-- `Writer.color` (line 740). -/
def w_color (c : BranchColor) : Element :=
  el (_ns "color") [] none
    ((c.red.map (fun v => w_simple "red" (serialize_int v))).toList ++
     (c.green.map (fun v => w_simple "green" (serialize_int v))).toList ++
     (c.blue.map (fun v => w_simple "blue" (serialize_int v))).toList)

/-- `Writer.date` (lines 745-746): the subnode table names `minimum` and
`maximum`, but the Writer class defines no handlers of those names, so a
date with either field present raises `AttributeError`. -/
def w_date (d : Date) : Except PyErr Element := do
  let mn ← match d.minimum with
    | none => pure ([] : List Element)
    | some _ => .error (.attributeError "Writer object has no attribute minimum")
  let mx ← match d.maximum with
    | none => pure ([] : List Element)
    | some _ => .error (.attributeError "Writer object has no attribute maximum")
  .ok (el (_ns "date") (optAttrs [("unit", d.unit.map serialize_str)]) none
    ((d.desc.map (fun x => w_simple "desc" (serialize_str x))).toList ++
     (d.value.map (fun x => w_simple "value" (serialize_float x))).toList ++
     mn ++ mx))

/-- `Writer.point` (lines 784-785). -/
def w_point (p : Point) : Element :=
  el (_ns "point")
    (optAttrs [("geodetic_datum", p.geodetic_datum.map serialize_str),
      ("alt_unit", p.alt_unit.map serialize_str)])
    none
    ((p.lat.map (fun v => w_simple "lat" (serialize_float v))).toList ++
     (p.long.map (fun v => w_simple "long" (serialize_float v))).toList ++
     (p.alt.map (fun v => w_simple "alt" (serialize_float v))).toList)

/-- `Writer.polygon` (line 787). -/
def w_polygon (p : Polygon) : Element :=
  el (_ns "polygon") [] none (p.points.map w_point)

/-- `Writer.distribution` (lines 748-752). -/
def w_distribution (d : Distribution) : Element :=
  el (_ns "distribution") [] none
    ((d.desc.map (fun x => w_simple "desc" (serialize_str x))).toList ++
     d.points.map w_point ++ d.polygons.map w_polygon)

/-- `Writer.domain` (lines 754-763). -/
def w_domain (d : ProteinDomain) : Element :=
  el (_ns "domain")
    ([("from", serialize_int (d.start + 1)), ("to", serialize_int d.end_)] ++
     optAttrs [("confidence", d.confidence.map serialize_float),
       ("id", d.id.map serialize_str)])
    (some (serialize_str d.value)) []

/-- `Writer.domain_architecture` (lines 765-767). -/
def w_domain_architecture (d : DomainArchitecture) : Element :=
  el (_ns "domain_architecture")
    [("length", serialize_int d.length)] none (d.domains.map w_domain)

/-- `Writer.events` (lines 769-775). -/
def w_events (ev : Events) : Element :=
  el (_ns "events") [] none
    ((ev.type.map (fun x => w_simple "type" (serialize_str x))).toList ++
     (ev.duplications.map (fun x => w_simple "duplications" (serialize_int x))).toList ++
     (ev.speciations.map (fun x => w_simple "speciations" (serialize_int x))).toList ++
     (ev.losses.map (fun x => w_simple "losses" (serialize_int x))).toList ++
     (ev.confidence.map w_confidence).toList)

/-- `Writer.mol_seq`: the complex definition at line 779 is shadowed by the
simple-handler class attribute at line 852, so a `MolSeq` is written as a
bare text node (its `is_aligned` attribute is dropped); `serialize` falls
through to the object's natural string form, modelled from the spec as its
sequence value. -/
def w_mol_seq (m : MolSeq) : Element :=
  w_simple "mol_seq" (serialize_str m.value)

/-- `Writer.node_id` (line 782): the parser stores `node_id` as a plain
string (line 386), but the writer treats it as a structured object and
reads a `provider` attribute from it, which raises `AttributeError`. -/
def w_node_id (_ : String) : Except PyErr Element :=
  .error (.attributeError "str object has no attribute provider")

/-- `Writer.reference` (line 793). -/
def w_reference (r : Reference) : Element :=
  el (_ns "reference") (optAttrs [("doi", r.doi.map serialize_str)]) none
    ((r.desc.map (fun x => w_simple "desc" (serialize_str x))).toList)

/-- `Writer.sequence` (lines 795-806). -/
def w_sequence (s : Sequence) : Except PyErr Element := do
  let anns ← s.annotations.mapM w_annotation
  .ok (el (_ns "sequence")
    (optAttrs [("type", s.type.map serialize_str),
      ("id_ref", s.id_ref.map serialize_str),
      ("id_source", s.id_source.map serialize_str)])
    none
    ((s.symbol.map (fun x => w_simple "symbol" (serialize_str x))).toList ++
     (s.accession.map w_accession).toList ++
     (s.name.map (fun x => w_simple "name" (serialize_str x))).toList ++
     (s.location.map (fun x => w_simple "location" (serialize_str x))).toList ++
     (s.mol_seq.map w_mol_seq).toList ++
     (s.uri.map w_uri).toList ++
     anns ++
     (s.domain_architecture.map w_domain_architecture).toList ++
     s.other.map w_other))

/-- `Writer.sequence_relation` (lines 808-810). -/
def w_sequence_relation (r : SequenceRelation) : Element :=
  el (_ns "sequence_relation")
    (optAttrs [("id_ref_0", r.id_ref_0.map serialize_str),
      ("id_ref_1", r.id_ref_1.map serialize_str),
      ("distance", r.distance.map serialize_float),
      ("type", r.type.map serialize_str)])
    none ((r.confidence.map w_confidence).toList)

/-- `Writer.taxonomy` (lines 812-823): the subnode table names `authority`,
for which the Writer class defines no handler, so a taxonomy with an
authority raises `AttributeError`. -/
def w_taxonomy (t : Taxonomy) : Except PyErr Element := do
  let auth ← match t.authority with
    | none => pure ([] : List Element)
    | some _ => .error (.attributeError "Writer object has no attribute authority")
  .ok (el (_ns "taxonomy")
    (optAttrs [("id_source", t.id_source.map serialize_str)])
    none
    ((t.id.map w_id).toList ++
     (t.code.map (fun x => w_simple "code" (serialize_str x))).toList ++
     (t.scientific_name.map (fun x => w_simple "scientific_name" (serialize_str x))).toList ++
     auth ++
     t.common_names.map (fun x => w_simple "common_name" (serialize_str x)) ++
     t.synonyms.map (fun x => w_simple "synonym" (serialize_str x)) ++
     (t.rank.map (fun x => w_simple "rank" (serialize_str x))).toList ++
     (t.uri.map w_uri).toList ++
     t.other.map w_other))

mutual
/-- `Writer.clade` (lines 693-710): fixed subnode order, child clades
recursively, foreign nodes last. -/
def w_clade (c : Clade) : Except PyErr Element :=
  match c with
  | .mk core kids => do
    let nid ← optChild core.node_id w_node_id
    let col := (core.color.map w_color).toList
    let txs ← core.taxonomies.mapM w_taxonomy
    let sqs ← core.sequences.mapM w_sequence
    let bcs ← optChild core.binary_characters w_binary_characters
    let dts ← optChild core.date w_date
    let subclades ← w_clade_list kids
    .ok (el (_ns "clade")
      (optAttrs [("id_source", core.id_source.map serialize_str)])
      none
      ((core.name.map (fun x => w_simple "name" (serialize_str x))).toList ++
       (core.branch_length.map (fun x => w_simple "branch_length" (serialize_float x))).toList ++
       core.confidences.map w_confidence ++
       (core.width.map (fun x => w_simple "width" (serialize_float x))).toList ++
       col ++ nid ++ txs ++ sqs ++
       (core.events.map w_events).toList ++
       bcs ++
       core.distributions.map w_distribution ++
       dts ++
       core.references.map w_reference ++
       core.properties.map w_property ++
       subclades ++
       core.other.map w_other))
def w_clade_list : CladeList → Except PyErr (List Element)
  | .nil => .ok []
  | .cons c cs => do
    let e ← w_clade c
    let es ← w_clade_list cs
    .ok (e :: es)
end

/-- `Writer.phylogeny` (lines 679-691). -/
def w_phylogeny (p : Phylogeny) : Except PyErr Element := do
  let dts ← optChild p.date w_date
  let cld ← optChild p.clade w_clade
  .ok (el (_ns "phylogeny")
    (optAttrs [("rooted", p.rooted.map serialize_bool),
      ("rerootable", p.rerootable.map serialize_bool),
      ("branch_length_unit", p.branch_length_unit.map serialize_str),
      ("type", p.type.map serialize_str)])
    none
    ((p.name.map (fun x => w_simple "name" (serialize_str x))).toList ++
     (p.id.map w_id).toList ++
     (p.description.map (fun x => w_simple "description" (serialize_str x))).toList ++
     dts ++
     p.confidences.map w_confidence ++
     cld ++
     p.clade_relations.map w_clade_relation ++
     p.sequence_relations.map w_sequence_relation ++
     p.properties.map w_property ++
     p.other.map w_other))

/-- `Writer.phyloxml` (lines 659-670): a bare wrapper element (the root's
attributes are not written back), trees first, then foreign nodes. -/
def w_phyloxml (px : Phyloxml) : Except PyErr Element := do
  let phys ← px.phylogenies.mapM w_phylogeny
  .ok (el (_ns "phyloxml") [] none (phys ++ px.other.map w_other))

/-- `write(phyloxml, file)` (lines 584-589, 645-655): the element tree that
`Writer.write` serialises.  Re-parsing the written file is modelled as
running the reader over this tree. -/
def write (px : Phyloxml) : Except PyErr Element := w_phyloxml px

/-! ### Concrete documents and projections used by the theorems below -/

/-- A clade whose only child is a `sequence` holding a `name` element. -/
def cladeSeqName : Element :=
  el (_ns "clade") [] none
    [ el (_ns "sequence") [] none
      [ el (_ns "name") [] (some "SeqName") [] ] ]

/-- A clade whose only child is an empty foreign-namespace element. -/
def cladeForeign : Element :=
  el (_ns "clade") [] none [ el (_ns "foo" "urn:x") [] none [] ]

/-- A clade holding a sequence that holds a foreign-namespace element. -/
def cladeForeignInSeq : Element :=
  el (_ns "clade") [] none
    [ el (_ns "sequence") [] none [ el (_ns "foo" "urn:x") [] none [] ] ]

/-- The event continuation handed to `_parse_clade` for a standalone
element: its inner events followed by its own end event. -/
def cladeEvs (e : Element) : List Event := innerEvents e ++ [endEv e]

/-- A document whose tree's clade carries its own `name` element after a
`sequence` child that also holds a `name` element. -/
def docX : Element :=
  el (_ns "phyloxml") [] none
    [ el (_ns "phylogeny") [("rooted", "true")] none
      [ el (_ns "clade") [] none
        [ el (_ns "sequence") [] none [ el (_ns "name") [] (some "S") [] ],
          el (_ns "name") [] (some "A") [] ] ] ]

/-- The root clade's `name` field of the first tree of a read result. -/
def cladeNameOf (r : Except PyErr Phyloxml) : Option (Option String) :=
  r.toOption.bind (fun px => px.phylogenies.head?.bind
    (fun p => p.clade.map (fun c => c.core.name)))

/-- `read(write(read(x)))`: one write/read cycle after the first read. -/
def readWriteRead (x : Element) : Except PyErr Phyloxml := do
  let d ← read x
  let w ← write d
  read w

/-- A foreign element with padded text. -/
def foreignPadded : Element :=
  el (_ns "foo" "urn:x") [("a", "1")] (some " x ")
    [ el (_ns "bar" "urn:x") [] none [] ]

/-- The same foreign element with already-trimmed text everywhere. -/
def foreignTrimmed : Element :=
  el (_ns "foo" "urn:x") [("a", "1")] (some "x")
    [ el (_ns "bar" "urn:x") [] (some "y") [] ]

mutual
/-- Every tag in the tree is a brace-prefixed namespaced tag. -/
def wfTags : Element → Bool
  | .mk c kids =>
    (match c.tag.toList with
     | '\x7b' :: rest => (splitFirst '\x7d' rest).isSome
     | _ => false) && wfTagsList kids
def wfTagsList : ElementList → Bool
  | .nil => true
  | .cons e es => wfTags e && wfTagsList es
end

mutual
/-- Apply the parser's text-truthiness/strip normalisation to every text
node of an element tree. -/
def stripTexts : Element → Element
  | .mk c kids => .mk ⟨c.tag, c.attrib, truthyStrip c.text⟩ (stripTextsList kids)
def stripTextsList : ElementList → ElementList
  | .nil => .nil
  | .cons e es => .cons (stripTexts e) (stripTextsList es)
end

/-- Three one-clade/empty trees for the lazy-iteration witness. -/
def tree1 : Element :=
  el (_ns "phylogeny") [("rooted", "true")] none [ el (_ns "clade") [] none [] ]

def tree2 : Element :=
  el (_ns "phylogeny") [("rooted", "true")] none []

def tree3 : Element :=
  el (_ns "phylogeny") [("rooted", "false")] none []

/-- The document holding the three trees. -/
def doc3 : Element := el (_ns "phyloxml") [] none [tree1, tree2, tree3]

/-- The expected first tree of `doc3`. -/
def tree1Parsed : Phylogeny :=
  { rooted := some true, clade := some (.mk {} .nil) }

/-! ## Theorems -/

/-- C5: the claim states `split_namespace(tag)` returns `("", tag)` for an
unprefixed tag.  In fact `tag[1:].split('\x7d', 1)` never raises on a
string, so the `except` fallback returning `("", tag)` is dead code: on an
unprefixed tag the function returns a one-element list whose only entry has
lost the tag's first character (callers that unpack the result then fail).
Prefix splitting itself works, and the function indeed never raises. -/
theorem c5_split_namespace_unprefixed :
    split_namespace "clade" = ["lade"] ∧
    split_namespace "clade" ≠ ["", "clade"] ∧
    split_namespace (_ns "clade") = [phyNS, "clade"] := by decide

/-- C1: evaluation at the failing input.  For a clade whose only child is a
`sequence` containing a `name` element, `_parse_clade` pushes the nested
tracked tag `name` onto this level's tag stack at its start event, so the
nested end event matches the top of the stack and is dispatched to this
clade: the parse succeeds and the sequence's name is assigned to the
clade's own `name` field, contradicting the claim that a same-named tag of
a deeper element nested inside a non-clade child is never attributed to
this clade. -/
theorem c1_nested_name_misattributed :
    (_parse_clade cladeSeqName (cladeEvs cladeSeqName)).toOption.map
      (fun p => (p.1.core.name, p.1.core.sequences.map (fun s => s.name), p.2)) =
    some (some "SeqName", [some "SeqName"], []) := by decide

/-- C4: evaluation at the failing inputs.  A foreign-namespace end event
is never appended to the clade's foreign list: with an empty local tag
stack the dispatch `tag != tag_stack[-1]` raises `IndexError`, and with a
non-matching stack top the event is skipped, so a foreign element nested in
a `sequence` child leaves the clade's foreign list empty. -/
theorem c4_foreign_end_not_appended :
    _parse_clade cladeForeign (cladeEvs cladeForeign) =
      .error (.indexError "list index out of range") ∧
    (_parse_clade cladeForeignInSeq (cladeEvs cladeForeignInSeq)).toOption.map
      (fun p => (p.1.core.other.length, p.1.core.sequences.length)) =
      some (0, 1) := by decide

/-- C6: boolean-valued tree attributes are converted strictly.  `str2bool`
accepts exactly the case-sensitive literals `true` and `false`; any other
string makes it — and hence the phylogeny-attribute conversion of `rooted`
(and likewise `rerootable`) — fail with a `ValueError` naming the
offending string. -/
theorem c6_strict_boolean (s : String) :
    (str2bool s = .ok true ↔ s = "true") ∧
    (str2bool s = .ok false ↔ s = "false") ∧
    (s ≠ "true" → s ≠ "false" →
      str2bool s =
        .error (.valueError ("String could not be converted to boolean: " ++ s)) ∧
      phylogeny_from_attrs [("rooted", s)] =
        .error (.valueError ("String could not be converted to boolean: " ++ s)) ∧
      phylogeny_from_attrs [("rerootable", s)] =
        .error (.valueError ("String could not be converted to boolean: " ++ s))) := by
  refine ⟨?_, ?_, ?_⟩
  · constructor
    · intro h
      by_cases h1 : s = "true"
      · exact h1
      · by_cases h2 : s = "false" <;> simp [str2bool, h1, h2] at h
    · intro h
      simp [str2bool, h]
  · constructor
    · intro h
      by_cases h1 : s = "true"
      · simp [str2bool, h1] at h
      · by_cases h2 : s = "false"
        · exact h2
        · simp [str2bool, h1, h2] at h
    · intro h
      simp [str2bool, h]
  · intro h1 h2
    refine ⟨by simp [str2bool, h1, h2], ?_, ?_⟩ <;>
      simp [phylogeny_from_attrs, dict_str2bool, List.foldlM, List.find?,
        str2bool, h1, h2, Bind.bind, Except.bind]

/-- Witness for C6 at the concrete offending string `True`. -/
theorem c6_strict_boolean_witness :
    str2bool "True" =
      .error (.valueError "String could not be converted to boolean: True") ∧
    phylogeny_from_attrs [("rooted", "True")] =
      .error (.valueError "String could not be converted to boolean: True") := by
  have h := (c6_strict_boolean "True").2.2 (by decide) (by decide)
  exact ⟨h.1, h.2.1⟩

/-- C3: a clade carrying a parseable `branch_length` attribute whose body
also holds a `branch_length` child element at its own level fails with the
structural `PhyloXMLError` naming the doubly-set branch length (the
attribute is always discovered first, so this is the one possible order);
with only the attribute, or only one child element, the clade parses
without this error and the single source sets the field. -/
theorem c3_branch_length_set_twice (v : String) (btxt btxt' : Option String)
    (f : PyFloat) (tail : List Event) (hv : pyFloat? v = some f) :
    (_parse_clade
      (el (_ns "clade") [("branch_length", v)] none
        [el (_ns "branch_length") [] btxt []])
      (cladeEvs (el (_ns "clade") [("branch_length", v)] none
        [el (_ns "branch_length") [] btxt []]) ++ tail) =
      .error (.phyloXMLError
        ("Attribute branch_length was already set for this Clade; " ++
         "overwriting the previous value."))) ∧
    (_parse_clade (el (_ns "clade") [("branch_length", v)] none [])
      (cladeEvs (el (_ns "clade") [("branch_length", v)] none []) ++ tail) =
      .ok (.mk { branch_length := some f } .nil, tail)) ∧
    (_parse_clade (el (_ns "clade") [] none [el (_ns "branch_length") [] btxt' []])
      (cladeEvs (el (_ns "clade") [] none
        [el (_ns "branch_length") [] btxt' []]) ++ tail) =
      .ok (.mk { branch_length := _float btxt' } .nil, tail)) := by
  have e1 : unpack2 (split_namespace (_ns "branch_length")) =
      .ok (phyNS, "branch_length") := by decide
  have e2 : unpack2 (split_namespace (_ns "clade")) = .ok (phyNS, "clade") := by
    decide
  refine ⟨?_, ?_, ?_⟩ <;>
    simp +decide [_parse_clade, clade_from_element, Element.get, el,
      Element.attrib, Element.core, Element.tag, Element.text, List.find?,
      attrsAllowed, floatC, hv, cladeEvs, innerEvents, eventsOf, eventsOfList,
      ElementList.ofList, cladeRun, cladeStep, e1, e2, startEv, endEv,
      Bind.bind, Except.bind, pure, Except.pure, clade_tracked_tags,
      clade_complex_types, clade_list_tags, Clade.withCore, Clade.core,
      cladeUnwind]

/-- Witness for C3 at `branch_length="1.5"` with a `branch_length` child. -/
theorem c3_branch_length_set_twice_witness :
    pyFloat? "1.5" = some ⟨"1.5"⟩ ∧
    _parse_clade
      (el (_ns "clade") [("branch_length", "1.5")] none
        [el (_ns "branch_length") [] (some "2.0") []])
      (cladeEvs (el (_ns "clade") [("branch_length", "1.5")] none
        [el (_ns "branch_length") [] (some "2.0") []]) ++ []) =
      .error (.phyloXMLError
        ("Attribute branch_length was already set for this Clade; " ++
         "overwriting the previous value.")) :=
  ⟨by decide,
   (c3_branch_length_set_twice "1.5" (some "2.0") none ⟨"1.5"⟩ []
      (by decide)).1⟩

/-- C7: the claim as stated is false for the attribute form of
`branch_length`: the attribute is converted with the strict builtin
`float`, so an unparseable attribute text aborts the parse with a
`ValueError` instead of degrading. -/
theorem c7_counterexample :
    _parse_clade (el (_ns "clade") [("branch_length", "xyz")] none [])
      (cladeEvs (el (_ns "clade") [("branch_length", "xyz")] none [])) =
      .error (.valueError "could not convert string to float: xyz") := by decide

/-- C7 (amended): a coercion failure on the text of a `branch_length`
child element, a `width` child element, or a `confidence` value degrades to
an absent (`None`) value and the surrounding clade parse succeeds; the
`branch_length` attribute form, by contrast, raises a `ValueError` naming
the text. -/
theorem c7_lenient_leaf_coercion (t : String) (tail : List Event)
    (hbad : pyFloat? t = none) :
    (_parse_clade (el (_ns "clade") [] none [el (_ns "branch_length") [] (some t) []])
      (cladeEvs (el (_ns "clade") [] none
        [el (_ns "branch_length") [] (some t) []]) ++ tail) =
      .ok (.mk { branch_length := none } .nil, tail)) ∧
    (_parse_clade (el (_ns "clade") [] none [el (_ns "width") [] (some t) []])
      (cladeEvs (el (_ns "clade") [] none
        [el (_ns "width") [] (some t) []]) ++ tail) =
      .ok (.mk { width := none } .nil, tail)) ∧
    (_parse_clade (el (_ns "clade") [] none [el (_ns "confidence") [] (some t) []])
      (cladeEvs (el (_ns "clade") [] none
        [el (_ns "confidence") [] (some t) []]) ++ tail) =
      .ok (.mk { confidences := [⟨none, none⟩] } .nil, tail)) ∧
    (_parse_clade (el (_ns "clade") [("branch_length", t)] none [])
      (cladeEvs (el (_ns "clade") [("branch_length", t)] none []) ++ tail) =
      .error (.valueError ("could not convert string to float: " ++ t))) := by
  have e1 : unpack2 (split_namespace (_ns "branch_length")) =
      .ok (phyNS, "branch_length") := by decide
  have e2 : unpack2 (split_namespace (_ns "clade")) = .ok (phyNS, "clade") := by
    decide
  have e3 : unpack2 (split_namespace (_ns "width")) = .ok (phyNS, "width") := by
    decide
  have e4 : unpack2 (split_namespace (_ns "confidence")) =
      .ok (phyNS, "confidence") := by decide
  refine ⟨?_, ?_, ?_, ?_⟩ <;>
    simp +decide [_parse_clade, clade_from_element, Element.get, el,
      Element.attrib, Element.core, Element.tag, Element.text, List.find?,
      attrsAllowed, floatC, _float, hbad, cladeEvs, innerEvents, eventsOf,
      eventsOfList, ElementList.ofList, cladeRun, cladeStep, e1, e2, e3, e4,
      startEv, endEv, Bind.bind, Except.bind, pure, Except.pure,
      clade_tracked_tags, clade_complex_types, clade_list_tags,
      Clade.withCore, Clade.core, cladeUnwind, to_confidence]

/-- Witness for C7 (amended) at the unparseable text `xyz`. -/
theorem c7_lenient_leaf_coercion_witness :
    pyFloat? "xyz" = none ∧
    _parse_clade (el (_ns "clade") [] none [el (_ns "width") [] (some "xyz") []])
      (cladeEvs (el (_ns "clade") [] none
        [el (_ns "width") [] (some "xyz") []]) ++ []) =
      .ok (.mk { width := none } .nil, []) :=
  ⟨by decide, (c7_lenient_leaf_coercion "xyz" [] (by decide)).2.1⟩

/-- C8: evaluation at the failing input.  For the structurally valid
document `docX` (one tree, one clade holding a sequence with a `name`
child followed by the clade's own `name` element), the first read sets the
clade's name to its own value `A` (the nested sequence name is
mis-attributed first, then overwritten).  The writer emits the clade's
`name` subnode before its `sequence` subnodes, so re-reading the written
output mis-attributes the sequence's name `S` last: one write/read cycle
changes the document, refuting `read(write(read(X))) == read(X)`. -/
theorem c8_roundtrip_not_idempotent :
    cladeNameOf (read docX) = some (some "A") ∧
    cladeNameOf (readWriteRead docX) = some (some "S") ∧
    readWriteRead docX ≠ read docX := by decide

/-- While a clade is being parsed inside `_parse_phylogeny`, the run is the
clade run followed by the phylogeny loop on the remainder, with the
finished clade assigned to `phylogeny.clade`. -/
theorem phyloRun_some (evs : List Event) : ∀ (phy : Phylogeny) (st : CState),
    phyloRun phy (some st) evs =
      match cladeRun st evs with
      | .error er => .error er
      | .ok (c, rem) => phyloRun {phy with clade := some c} none rem := by
  induction evs with
  | nil =>
    intro phy st
    simp [phyloRun, cladeRun]
  | cons e rest ih =>
    intro phy st
    simp only [phyloRun, cladeRun]
    cases hs : cladeStep st e with
    | error er => simp
    | ok s =>
      cases s with
      | cont st' => simpa using ih phy st'
      | done c => simp

/-- C2: a phylogeny body whose first two events at the tree level open two
`clade` children fails with the structural assertion naming the
single-root constraint, as soon as the second `clade` start event is seen
(regardless of anything that follows); and a phylogeny body with no clade
events at all parses successfully with no root node (`phy0` is the freshly
constructed phylogeny, whose `clade` field is `None`, so a successful
parse assigns the root at most once). -/
theorem c2_duplicate_root (ce1 ce2 : Element) (cont : List Event)
    (phy0 : Phylogeny) (k c : Clade)
    (h1 : ce1.tag = _ns "clade") (h2 : ce2.tag = _ns "clade")
    (hphy : phy0.clade = none)
    (hk : clade_from_element ce1 = .ok k)
    (hrun : cladeRun ⟨k, [], []⟩
        (innerEvents ce1 ++ endEv ce1 :: startEv ce2 :: cont) =
      .ok (c, startEv ce2 :: cont)) :
    (phyloRun phy0 none (eventsOf ce1 ++ startEv ce2 :: cont) =
      .error (.assertionError "Phylogeny object should only have 1 clade")) ∧
    ∀ (pe : Element) (rest : List Event), pe.tag = _ns "phylogeny" →
      phyloRun phy0 none (endEv pe :: rest) = .ok (phy0, rest) := by
  have e2 : unpack2 (split_namespace (_ns "clade")) = .ok (phyNS, "clade") := by
    decide
  constructor
  · have hstream : eventsOf ce1 ++ startEv ce2 :: cont =
        startEv ce1 :: (innerEvents ce1 ++ endEv ce1 :: startEv ce2 :: cont) := by
      cases ce1 with
      | mk co kids =>
        simp [eventsOf, innerEvents, Element.children, startEv, endEv,
          List.append_assoc]
    rw [hstream]
    have hstep : phyloStep1 phy0 (startEv ce1) = .ok (.enter phy0 ⟨k, [], []⟩) := by
      simp [phyloStep1, startEv, h1, e2, hphy, hk, Bind.bind, Except.bind]
    simp only [phyloRun, hstep]
    rw [phyloRun_some, hrun]
    have hstep2 : phyloStep1 {phy0 with clade := some c} (startEv ce2) =
        .error (.assertionError "Phylogeny object should only have 1 clade") := by
      simp [phyloStep1, startEv, h2, e2, Bind.bind, Except.bind]
    simp only [phyloRun, hstep2]
  · intro pe rest hpe
    have e3 : unpack2 (split_namespace (_ns "phylogeny")) =
        .ok (phyNS, "phylogeny") := by decide
    have hstep : phyloStep1 phy0 (endEv pe) = .ok (.done phy0) := by
      simp [phyloStep1, endEv, hpe, e3, Bind.bind, Except.bind]
    simp only [phyloRun, hstep]

/-- Witness for C2 at a concrete tree holding two empty `clade` children
and at a concrete empty tree. -/
theorem c2_duplicate_root_witness :
    (phyloRun {} none
        (eventsOf (el (_ns "clade") [] none []) ++
          startEv (el (_ns "clade") [] none []) :: []) =
      .error (.assertionError "Phylogeny object should only have 1 clade")) ∧
    phyloRun ({} : Phylogeny) none [endEv (el (_ns "phylogeny") [] none [])] =
      .ok ({}, []) := by
  have h := c2_duplicate_root (el (_ns "clade") [] none [])
    (el (_ns "clade") [] none []) [] {} (.mk {} .nil) (.mk {} .nil)
    (by decide) (by decide) rfl (by decide) (by decide)
  exact ⟨h.1, h.2 (el (_ns "phylogeny") [] none []) [] (by decide)⟩

/-- The remainder returned by a phylogeny-loop run never exceeds its
input: the loop only consumes forward. -/
theorem phyloRun_rem_len : ∀ (evs : List Event) (phy : Phylogeny)
    (cst : Option CState) (p : Phylogeny) (r : List Event),
    phyloRun phy cst evs = .ok (p, r) → r.length ≤ evs.length := by
  intro evs
  induction evs with
  | nil =>
    intro phy cst p r h
    cases cst with
    | none => simp [phyloRun] at h; simp [h.2]
    | some st => simp [phyloRun] at h; simp [h.2]
  | cons e rest ih =>
    intro phy cst p r h
    cases cst with
    | some st =>
      simp only [phyloRun] at h
      cases hs : cladeStep st e with
      | error er => rw [hs] at h; simp at h
      | ok s =>
        rw [hs] at h
        cases s with
        | cont st' => exact Nat.le_succ_of_le (ih phy (some st') p r h)
        | done c => exact Nat.le_succ_of_le (ih _ none p r h)
    | none =>
      simp only [phyloRun] at h
      cases hs : phyloStep1 phy e with
      | error er => rw [hs] at h; simp at h
      | ok s =>
        rw [hs] at h
        cases s with
        | done phy' =>
          simp at h
          simp [h.2]
        | enter phy' st => exact Nat.le_succ_of_le (ih phy' (some st) p r h)
        | cont phy' => exact Nat.le_succ_of_le (ih phy' none p r h)

/-- The remainder returned by one lazy-iterator resumption never exceeds
its input. -/
theorem parse_step_rem_len : ∀ (evs : List Event) (p : Phylogeny)
    (r : List Event), parse_step evs = .ok (some (p, r)) →
    r.length ≤ evs.length := by
  intro evs
  induction evs with
  | nil => intro p r h; simp [parse_step] at h
  | cons e rest ih =>
    intro p r h
    simp only [parse_step] at h
    by_cases hc : e.kind = .start ∧ e.elem.tag = _ns "phylogeny"
    · rw [if_pos hc] at h
      simp only [_parse_phylogeny, Bind.bind, Except.bind] at h
      cases ha : phylogeny_from_attrs e.elem.attrib with
      | error er => simp only [ha] at h; simp at h
      | ok phy0 =>
        simp only [ha] at h
        cases hr : phyloRun phy0 none rest with
        | error er => simp only [hr] at h; simp at h
        | ok pr =>
          obtain ⟨p2, r2⟩ := pr
          simp only [hr] at h
          simp at h
          obtain ⟨-, h2⟩ := h
          have := phyloRun_rem_len rest phy0 none p2 r2 hr
          rw [← h2]
          simp only [List.length_cons]
          omega
    · rw [if_neg hc] at h
      exact Nat.le_succ_of_le (ih p r h)

/-- Frame property of the phylogeny loop: a run over `c ++ r` that succeeds
leaving exactly `r` (nonempty) as the remainder never looked at `r` at all
— the same run over `c ++ r'` yields the same phylogeny and leaves `r'`. -/
theorem phyloRun_frame : ∀ (c : List Event) (phy : Phylogeny)
    (cst : Option CState) (r : List Event) (p : Phylogeny),
    phyloRun phy cst (c ++ r) = .ok (p, r) → r ≠ [] →
    ∀ r', phyloRun phy cst (c ++ r') = .ok (p, r') := by
  intro c
  induction c with
  | nil =>
    intro phy cst r p h hne r'
    exfalso
    cases r with
    | nil => exact hne rfl
    | cons e rest =>
      cases cst with
      | some st =>
        simp only [List.nil_append, phyloRun] at h
        cases hs : cladeStep st e with
        | error er => simp only [hs] at h; simp at h
        | ok s =>
          simp only [hs] at h
          cases s with
          | cont st' =>
            have := phyloRun_rem_len rest phy (some st') p (e :: rest) h
            simp at this
          | done cl =>
            have := phyloRun_rem_len rest _ none p (e :: rest) h
            simp at this
      | none =>
        simp only [List.nil_append, phyloRun] at h
        cases hs : phyloStep1 phy e with
        | error er => simp only [hs] at h; simp at h
        | ok s =>
          simp only [hs] at h
          cases s with
          | done phy' =>
            simp at h
          | enter phy' st =>
            have := phyloRun_rem_len rest phy' (some st) p (e :: rest) h
            simp at this
          | cont phy' =>
            have := phyloRun_rem_len rest phy' none p (e :: rest) h
            simp at this
  | cons e ctail ih =>
    intro phy cst r p h hne r'
    cases cst with
    | some st =>
      simp only [List.cons_append, phyloRun] at h ⊢
      cases hs : cladeStep st e with
      | error er => simp only [hs] at h; simp at h
      | ok s =>
        simp only [hs] at h ⊢
        cases s with
        | cont st' => exact ih phy (some st') r p h hne r'
        | done cl => exact ih _ none r p h hne r'
    | none =>
      simp only [List.cons_append, phyloRun] at h ⊢
      cases hs : phyloStep1 phy e with
      | error er => simp only [hs] at h; simp at h
      | ok s =>
        simp only [hs] at h ⊢
        cases s with
        | done phy' =>
          simp at h ⊢
          obtain ⟨h1, h2⟩ := h
          have hlen := congrArg List.length h2
          simp at hlen
          subst hlen
          exact ⟨h1, rfl⟩
        | enter phy' st => exact ih phy' (some st) r p h hne r'
        | cont phy' => exact ih phy' none r p h hne r'

/-- Frame property of the lazy iterator's resumption. -/
theorem parse_step_frame : ∀ (c : List Event) (r : List Event)
    (p : Phylogeny), parse_step (c ++ r) = .ok (some (p, r)) → r ≠ [] →
    ∀ r', parse_step (c ++ r') = .ok (some (p, r')) := by
  intro c
  induction c with
  | nil =>
    intro r p h hne r'
    exfalso
    cases r with
    | nil => exact hne rfl
    | cons e rest =>
      simp only [List.nil_append, parse_step] at h
      by_cases hc : e.kind = .start ∧ e.elem.tag = _ns "phylogeny"
      · rw [if_pos hc] at h
        simp only [Bind.bind, Except.bind, _parse_phylogeny] at h
        cases ha : phylogeny_from_attrs e.elem.attrib with
        | error er => simp only [ha] at h; simp at h
        | ok phy0 =>
          simp only [ha] at h
          cases hr : phyloRun phy0 none rest with
          | error er => simp only [hr] at h; simp at h
          | ok pr =>
            obtain ⟨p2, r2⟩ := pr
            simp only [hr] at h
            simp at h
            obtain ⟨-, h2⟩ := h
            have := phyloRun_rem_len rest phy0 none p2 r2 hr
            rw [h2] at this
            simp at this
      · rw [if_neg hc] at h
        have := parse_step_rem_len rest p (e :: rest) h
        simp at this
  | cons e ctail ih =>
    intro r p h hne r'
    simp only [List.cons_append, parse_step] at h ⊢
    by_cases hc : e.kind = .start ∧ e.elem.tag = _ns "phylogeny"
    · rw [if_pos hc] at h ⊢
      simp only [Bind.bind, Except.bind, _parse_phylogeny] at h ⊢
      cases ha : phylogeny_from_attrs e.elem.attrib with
      | error er => simp only [ha] at h; simp at h
      | ok phy0 =>
        simp only [ha] at h ⊢
        cases hr : phyloRun phy0 none (ctail ++ r) with
        | error er => simp [hr] at h
        | ok pr =>
          obtain ⟨p2, r2⟩ := pr
          simp [hr] at h
          obtain ⟨h1, h2⟩ := h
          rw [h1, h2] at hr
          have hfr := phyloRun_frame ctail phy0 none r p hr hne r'
          simp [hfr, h1]
    · rw [if_neg hc] at h ⊢
      exact ih r p h hne r'

/-- An element always produces at least its own start event. -/
theorem eventsOf_ne_nil (e : Element) : eventsOf e ≠ [] := by
  cases e with
  | mk c kids => simp [eventsOf]

/-- C10: if the first resumption of the lazy iterator over a document whose
stream continues with trees 2 and 3 (and anything after) returns the first
tree with that remainder intact, then the computation of the first tree is
independent of everything after tree 1: the same resumption over any other
remainder — including the empty one — yields the same tree.  Hence no
event belonging to trees 2 and 3 is consumed by the first pull, and once
the consumer stops requesting values (the pull model runs nothing
unrequested), the remaining input is never touched. -/
theorem c10_lazy_first_pull (s1 : List Event) (p : Phylogeny)
    (t2 t3 : Element) (tail : List Event)
    (h : parse_step (s1 ++ (eventsOf t2 ++ eventsOf t3 ++ tail)) =
      .ok (some (p, eventsOf t2 ++ eventsOf t3 ++ tail))) :
    ∀ rest', parse_step (s1 ++ rest') = .ok (some (p, rest')) := by
  intro rest'
  refine parse_step_frame s1 _ p h ?_ rest'
  intro hnil
  cases hev : eventsOf t2 with
  | nil => exact eventsOf_ne_nil t2 hev
  | cons x xs => rw [hev] at hnil; simp at hnil

/-- Witness for C10: on the concrete three-tree document `doc3`, the first
pull returns tree 1 with the events of trees 2 and 3 untouched, and the
theorem transports that run to the truncated stream holding tree 1 alone. -/
theorem c10_lazy_first_pull_witness :
    (innerEvents doc3 ++ [endEv doc3] =
      eventsOf tree1 ++ (eventsOf tree2 ++ eventsOf tree3 ++ [endEv doc3])) ∧
    (parse_step (eventsOf tree1 ++
        (eventsOf tree2 ++ eventsOf tree3 ++ [endEv doc3])) =
      .ok (some (tree1Parsed,
        eventsOf tree2 ++ eventsOf tree3 ++ [endEv doc3]))) ∧
    parse_step (eventsOf tree1 ++ []) = .ok (some (tree1Parsed, [])) :=
  ⟨by decide, by decide,
   c10_lazy_first_pull (eventsOf tree1) tree1Parsed tree2 tree3 [endEv doc3]
     (by decide) []⟩


/-- Splitting at the first occurrence of `sep` decomposes the list. -/
theorem splitFirst_eq {sep : Char} : ∀ {l a b : List Char},
    splitFirst sep l = some (a, b) → l = a ++ sep :: b := by
  intro l
  induction l with
  | nil => intro a b h; simp [splitFirst] at h
  | cons c cs ih =>
    intro a b h
    simp only [splitFirst] at h
    by_cases hc : c = sep
    · rw [if_pos hc] at h
      simp at h
      obtain ⟨ha, hb⟩ := h
      subst ha; subst hb; subst hc
      simp
    · rw [if_neg hc] at h
      cases hs : splitFirst sep cs with
      | none => rw [hs] at h; simp at h
      | some pr =>
        obtain ⟨a', b'⟩ := pr
        rw [hs] at h
        simp at h
        obtain ⟨ha, hb⟩ := h
        subst ha; subst hb
        simp [ih hs]

theorem ns_data (t ns : String) :
    (_ns t ns).data = '\x7b' :: (ns.data ++ '\x7d' :: t.data) := by
  have hb : "\x7b".data = ['\x7b'] := rfl
  have hd : "\x7d".data = ['\x7d'] := rfl
  simp [_ns, String.data_append, hb, hd]

mutual
theorem otherRoundtrip (e : Element) (h : wfTags e = true) :
    (to_other e).map w_other = .ok (stripTexts e) := by
  cases e with
  | mk c kids =>
    simp only [wfTags, Bool.and_eq_true] at h
    obtain ⟨htag, hkids⟩ := h
    split at htag
    case h_2 => simp at htag
    case h_1 c0 rest heq =>
      rw [Option.isSome_iff_exists] at htag
      obtain ⟨⟨a, b⟩, hsf⟩ := htag
      have hdata : c.tag.toList = c.tag.data := rfl
      rw [hdata] at heq
      have hsn : split_namespace c.tag = [String.mk a, String.mk b] := by
        simp [split_namespace, heq, hsf]
      have hrest : rest = a ++ '\x7d' :: b := splitFirst_eq hsf
      have htg : _ns (String.mk b) (String.mk a) = c.tag := by
        apply String.ext
        rw [ns_data]
        rw [heq, hrest]
      have hkl := otherRoundtripList kids hkids
      cases hol : to_other_list kids with
      | error er => rw [hol] at hkl; simp [Except.map] at hkl
      | ok os =>
        rw [hol] at hkl
        simp [Except.map] at hkl
        simp [to_other, hsn, unpack2, hol, Bind.bind, Except.bind,
          Except.map, w_other, stripTexts, hkl, htg]
theorem otherRoundtripList (es : ElementList) (h : wfTagsList es = true) :
    (to_other_list es).map w_other_list = .ok (stripTextsList es) := by
  cases es with
  | nil => simp [to_other_list, stripTextsList, w_other_list, Except.map]
  | cons e es =>
    simp only [wfTagsList, Bool.and_eq_true] at h
    have h1 := otherRoundtrip e h.1
    have h2 := otherRoundtripList es h.2
    cases ho : to_other e with
    | error er => rw [ho] at h1; simp [Except.map] at h1
    | ok o =>
      rw [ho] at h1
      simp [Except.map] at h1
      cases hos : to_other_list es with
      | error er => rw [hos] at h2; simp [Except.map] at h2
      | ok os =>
        rw [hos] at h2
        simp [Except.map] at h2
        simp [to_other_list, ho, hos, Bind.bind, Except.bind, Except.map,
          w_other_list, stripTextsList, h1, h2]
end

/-- C9 (amended): reading a foreign element into a `ForeignNode` via
`to_other` and writing it back via `Writer.other` reproduces its tag,
namespace, attribute map and ordered children unchanged, and its text up to
the parser's trim: each text is stripped of surrounding whitespace, with
empty or whitespace-only text becoming absent.  In particular an element
whose texts are already in that normal form round-trips exactly. -/
theorem c9_foreign_roundtrip (e : Element) (h : wfTags e = true) :
    (to_other e).map w_other = .ok (stripTexts e) ∧
    (stripTexts e = e → (to_other e).map w_other = .ok e) := by
  have hr := otherRoundtrip e h
  exact ⟨hr, fun hs => by rw [hr, hs]⟩

/-- C9: the claim as stated is false — the text is not reproduced
unchanged.  A foreign element whose text is `" x "` (with surrounding
whitespace) reads and writes back with text `"x"`: the snapshot trims. -/
theorem c9_text_not_unchanged :
    (to_other foreignPadded).map w_other = .ok (stripTexts foreignPadded) ∧
    (to_other foreignPadded).map w_other ≠ .ok foreignPadded := by decide

/-- Witness for C9 (amended) at a concrete already-trimmed element. -/
theorem c9_foreign_roundtrip_witness :
    wfTags foreignTrimmed = true ∧
    (to_other foreignTrimmed).map w_other = .ok foreignTrimmed :=
  ⟨by decide, (c9_foreign_roundtrip foreignTrimmed (by decide)).2 (by decide)⟩

end PhyloXML
